import Mathlib

set_option maxRecDepth 8000

/-!
miniPy core: shallow embedding and verification
===============================================

This file embeds the core of the miniPy pipeline — the AST node set
(`ast_nodes.py`), the token mapper (`lexer.py`), the recursive-descent
parser (`parser.py`), the scope checker (`semantic.py`) and the
tree-walking interpreter (`interpreter.py`) — as executable Lean
definitions, and proves properties of them.

Modelling conventions:
* Host `dict` objects become association lists (`Env`); since the source
  only ever copies environments on push (`dict(...)`) and mutates the
  topmost frame, the pure state-passing model is observationally faithful.
* Host numbers: `int` is `Int`; `float` is idealised as `ℚ` (no claim
  below depends on binary floating-point rounding).
* Host exceptions become an explicit error type `Err`; the
  `ReturnException` control signal becomes the `.ret` constructor of the
  statement outcome, carrying the environment stack as it stood when the
  signal was raised (mutations performed before a raise persist, exactly
  as with the mutable `env_stack` list in the source).
* Recursion in the interpreter is fuelled (`Nat` fuel, one unit per
  dispatch); `Err.outOfFuel` is a modelling artifact, not a source error.
-/

namespace MiniPy

/-- Numeric literal payload of `NumberNode` (`ast_nodes.py`): the parser
stores a host `int` (no `'.'` in the token) or a host `float`. -/
inductive NumVal where
  | int (n : Int)
  | float (q : ℚ)
deriving DecidableEq, Repr

mutual
/-- AST node set from `ast_nodes.py`. `Program` is represented by the
bare statement list `NodeList`. `IfNode.else_body` of `None` and `[]`
are indistinguishable in the source (both falsy, and iterating `[]` is a
no-op), so both map to `.nil`. `lineno`/`col` are `Option Nat` matching
the dataclass defaults of `None`. The three types are mutually inductive
(rather than using `List Node`) so that every traversal below is
structurally recursive. -/
inductive Node where
  | num (value : NumVal) (line col : Option Nat)
  | strLit (value : String) (line col : Option Nat)
  | ident (name : String) (line col : Option Nat)
  | binop (left : Node) (op : String) (right : Node) (line col : Option Nat)
  | assign (name : String) (value : Node) (line col : Option Nat)
  | ifS (cond : Node) (thenB : NodeList) (elifs : ElifList) (elseB : NodeList)
      (line col : Option Nat)
  | whileS (cond : Node) (body : NodeList) (line col : Option Nat)
  | funcDef (name : String) (params : List String) (body : NodeList)
      (line col : Option Nat)
  | retS (value : Option Node) (line col : Option Nat)
  | call (func : Node) (args : NodeList) (line col : Option Nat)

inductive NodeList where
  | nil
  | cons (head : Node) (tail : NodeList)

inductive ElifList where
  | nil
  | cons (cond : Node) (body : NodeList) (tail : ElifList)
end

/-- Runtime values of the interpreter: host `int`/`float`/`str`/`bool`
objects, `None`, the single builtin `print`, and `FunctionValue`
(`interpreter.py` lines 7-11: `params`, `body`, captured `env`).
The captured environment is inlined as an association list. -/
inductive Value where
  | int (n : Int)
  | float (q : ℚ)
  | str (s : String)
  | bool (b : Bool)
  | none
  | builtinPrint
  | func (params : List String) (body : NodeList) (env : List (String × Value))

/-- A host `dict` of variable bindings. -/
abbrev Env := List (String × Value)

/-- `d[name] = v` on a host dict: overwrite the existing entry in place,
else append (insertion order preserved, keys unique). -/
def envSet (e : Env) (name : String) (v : Value) : Env :=
  match e with
  | [] => [(name, v)]
  | (k, w) :: rest =>
      if k = name then (k, v) :: rest else (k, w) :: envSet rest name v

/-- `name in d` / `d[name]` on a host dict. -/
def envGet (e : Env) (name : String) : Option Value :=
  match e with
  | [] => Option.none
  | (k, w) :: rest => if k = name then some w else envGet rest name

/-- `for s in reversed(self.env_stack): if name in s: return s[name]` —
the lexical lookup of `eval_IdentifierNode` / `eval_CallNode`. The stack
is kept top-first (`env_stack[-1]` is the head). -/
def lookupStack (stack : List Env) (name : String) : Option Value :=
  match stack with
  | [] => Option.none
  | e :: rest =>
      match envGet e name with
      | some v => some v
      | Option.none => lookupStack rest name

/-- Interpreter errors. The host exceptions raised by `interpreter.py`:
`NameError` (lines 58, 94), host `TypeError` from mixed-type operands,
host `ZeroDivisionError` from `l / r`, `RuntimeError("Unknown operator")`
(line 83), `RuntimeError("Not callable")` (line 117) and
`NotImplementedError` (lines 39, 163). `outOfFuel` is the fuel artifact;
`emptyStack` models indexing `env_stack[-1]` on an empty stack
(unreachable from `run`). -/
inductive Err where
  | nameError (name : String) (line : Option Nat)
  | typeError
  | divisionByZero
  | unknownOperator (op : String)
  | notCallable
  | noEvalMethod
  | outOfFuel
  | emptyStack
deriving DecidableEq, Repr

/-- Interpreter state: the environment stack (head = `env_stack[-1]`)
plus the sequence of values passed to the builtin `print` so far (the
observable output). -/
structure St where
  stack : List Env
  out : List Value

/-- Truthiness of a host value (`if cond:` / `while ...:`). Numbers are
truthy iff nonzero, strings iff nonempty, `None` falsy, functions and
builtins truthy. -/
def truthy : Value → Bool
  | .int n => n ≠ 0
  | .float q => q ≠ 0
  | .str s => s ≠ ""
  | .bool b => b
  | .none => false
  | .builtinPrint => true
  | .func _ _ _ => true

/-- View of a value as a host number for arithmetic: `bool` participates
as `0`/`1` (host `True + True == 2`), `int` and `float` as themselves. -/
def asNum : Value → Option NumVal
  | .int n => some (.int n)
  | .float q => some (.float q)
  | .bool b => some (.int (if b then 1 else 0))
  | _ => Option.none

/-- Host numeric addition/subtraction/multiplication: `int op int` stays
`int`, any `float` operand makes the result `float`. -/
def numArith (f : Int → Int → Int) (g : ℚ → ℚ → ℚ) : NumVal → NumVal → Value
  | .int a, .int b => .int (f a b)
  | .int a, .float b => .float (g (a : ℚ) b)
  | .float a, .int b => .float (g a (b : ℚ))
  | .float a, .float b => .float (g a b)

/-- The rational carried by a host number. -/
def NumVal.toRat : NumVal → ℚ
  | .int n => (n : ℚ)
  | .float q => q

/-- Host string repetition `s * n` (negative counts give `""`). -/
def strRepeat (s : String) (n : Int) : String :=
  (List.replicate n.toNat s).foldl (· ++ ·) ""

/-- Host `==` on the miniPy value domain: numbers (including `bool`)
compare by value across kinds, strings and `None` by structure, any
remaining cross-kind pair is unequal (host `==` never raises here).
Two `FunctionValue`s compare by host object identity; the model takes
distinct function objects, so this case is `false`. -/
def valEq (l r : Value) : Bool :=
  match asNum l, asNum r with
  | some a, some b => a.toRat = b.toRat
  | _, _ =>
      match l, r with
      | .str a, .str b => a = b
      | .none, .none => true
      | .builtinPrint, .builtinPrint => true
      | _, _ => false

/-- Host `<`-style ordering: numeric across kinds, lexicographic on
strings, `TypeError` otherwise. `f`/`g` are the rational and string
comparators for the operator. -/
def valCmp (f : ℚ → ℚ → Bool) (g : String → String → Bool) (l r : Value) :
    Except Err Value :=
  match asNum l, asNum r with
  | some a, some b => .ok (.bool (f a.toRat b.toRat))
  | _, _ =>
      match l, r with
      | .str a, .str b => .ok (.bool (g a b))
      | _, _ => .error .typeError

/-- The operator dispatch of `eval_BinaryOpNode` (`interpreter.py` lines
63-83) after both operands are evaluated, with host operator semantics on
the miniPy value domain: `+` adds numbers or concatenates strings, `-`
subtracts, `*` multiplies or repeats a string by an integer count, `/` is
host true division — always `float`-valued, raising `ZeroDivisionError`
on a zero numeric divisor and `TypeError` on non-numeric operands — the
comparisons behave as in `valEq`/`valCmp`, and any other operator string
raises `RuntimeError` (line 83). -/
def applyBinOp (op : String) (l r : Value) : Except Err Value :=
  if op = "+" then
    match l, r with
    | .str a, .str b => .ok (.str (a ++ b))
    | _, _ =>
        match asNum l, asNum r with
        | some a, some b => .ok (numArith (· + ·) (· + ·) a b)
        | _, _ => .error .typeError
  else if op = "-" then
    match asNum l, asNum r with
    | some a, some b => .ok (numArith (· - ·) (· - ·) a b)
    | _, _ => .error .typeError
  else if op = "*" then
    match l, r with
    | .str a, .int n => .ok (.str (strRepeat a n))
    | .int n, .str a => .ok (.str (strRepeat a n))
    | .str a, .bool b => .ok (.str (strRepeat a (if b then 1 else 0)))
    | .bool b, .str a => .ok (.str (strRepeat a (if b then 1 else 0)))
    | _, _ =>
        match asNum l, asNum r with
        | some a, some b => .ok (numArith (· * ·) (· * ·) a b)
        | _, _ => .error .typeError
  else if op = "/" then
    match asNum l, asNum r with
    | some a, some b =>
        if b.toRat = 0 then .error .divisionByZero
        else .ok (.float (a.toRat / b.toRat))
    | _, _ => .error .typeError
  else if op = "==" then .ok (.bool (valEq l r))
  else if op = "!=" then .ok (.bool (!valEq l r))
  else if op = "<" then valCmp (· < ·) (· < ·) l r
  else if op = "<=" then valCmp (· ≤ ·) (· ≤ ·) l r
  else if op = ">" then valCmp (· > ·) (fun a b => b < a) l r
  else if op = ">=" then valCmp (· ≥ ·) (fun a b => ¬a < b) l r
  else .error (.unknownOperator op)

/-- Parameter binding of `eval_CallNode` (`interpreter.py` lines 105-106):
`newenv[p] = args[i] if i < len(args) else None`, applied to the shallow
copy of the captured environment. Parameters are consumed positionally;
once the argument list runs out, the remaining parameters bind `None`. -/
def bindParams (ps : List String) (vs : List Value) (env : Env) : Env :=
  match ps, vs with
  | [], _ => env
  | p :: ps, [] => bindParams ps [] (envSet env p .none)
  | p :: ps, v :: vs => bindParams ps vs (envSet env p v)

/-- Work items of the interpreter: a single mutually recursive evaluator
is expressed as one fuelled function over this sum. In the source,
`eval_stmt` and `eval_expr` (`interpreter.py` lines 35-39 and 159-163)
perform the *same* `getattr` dispatch, so a single `eval` task covers
both; statement-shaped nodes evaluate to `None`. -/
inductive Task where
  /-- `eval_stmt` / `eval_expr` on one node. -/
  | eval (n : Node)
  /-- `for s in body: self.eval_stmt(s)` over a statement list. -/
  | seq (ns : NodeList)
  /-- `[self.eval_expr(a) for a in node.args]`, left to right. -/
  | evalArgs (ns : NodeList)
  /-- The `elif`/`else` cascade of `eval_IfNode` (lines 138-149). -/
  | elifChain (es : ElifList) (elseB : NodeList)
  /-- The loop of `eval_WhileNode` (lines 151-156). -/
  | whileLoop (cond : Node) (body : NodeList)
  /-- The call of a resolved target on evaluated arguments
  (`eval_CallNode` lines 99-117). -/
  | callFn (fn : Value) (vs : List Value)

/-- Evaluation results. `.ret` is a propagating `ReturnException`,
carrying the state (environment stack and output) as it stood at the
raise; `.err` is a host exception aborting the run. A completed
statement (list) is `.val .none` — the host methods return `None`. -/
inductive Res where
  | val (v : Value) (s : St)
  | vals (vs : List Value) (s : St)
  | ret (v : Value) (s : St)
  | err (e : Err) (s : St)

/-- The interpreter (`interpreter.py` lines 35-163) as one fuelled
evaluator. Fuel falls by one per dispatch; `.err .outOfFuel` is the
modelling artifact for runs deeper than the fuel. Environment-stack
discipline mirrors the source exactly: `if`/`while`/`elif`/`else` bodies
run on a pushed *copy* of the current frame which is popped only on
normal completion (a propagating `ReturnException` skips the pop, as the
source has no `finally`), and a call pops exactly one frame when it
catches the signal. -/
def evalT : Nat → Task → St → Res
  | 0, _, st => .err .outOfFuel st
  | fuel + 1, t, st =>
    match t with
    | .eval n =>
      match n with
      | .num v _ _ =>
          .val (match v with | .int a => .int a | .float q => .float q) st
      | .strLit s _ _ => .val (.str s) st
      | .ident name line _ =>
          match lookupStack st.stack name with
          | some v => .val v st
          | Option.none => .err (.nameError name line) st
      | .binop l op r _ _ =>
          match evalT fuel (.eval l) st with
          | .val vl s1 =>
              match evalT fuel (.eval r) s1 with
              | .val vr s2 =>
                  match applyBinOp op vl vr with
                  | .ok v => .val v s2
                  | .error e => .err e s2
              | other => other
          | other => other
      | .assign name value _ _ =>
          match evalT fuel (.eval value) st with
          | .val v s1 =>
              match s1.stack with
              | [] => .err .emptyStack s1
              | e :: rest => .val .none ⟨envSet e name v :: rest, s1.out⟩
          | other => other
      | .funcDef name params body _ _ =>
          match st.stack with
          | [] => .err .emptyStack st
          | e :: rest =>
              .val .none ⟨envSet e name (.func params body e) :: rest, st.out⟩
      | .retS value _ _ =>
          match value with
          | Option.none => .ret .none st
          | some vexpr =>
              match evalT fuel (.eval vexpr) st with
              | .val v s1 => .ret v s1
              | other => other
      | .ifS cond thenB elifs elseB _ _ =>
          match evalT fuel (.eval cond) st with
          | .val c s1 =>
              if truthy c then
                match s1.stack with
                | [] => .err .emptyStack s1
                | e :: rest =>
                    match evalT fuel (.seq thenB) ⟨e :: e :: rest, s1.out⟩ with
                    | .val _ s2 =>
                        match s2.stack with
                        | [] => .err .emptyStack s2
                        | _ :: rest2 => .val .none ⟨rest2, s2.out⟩
                    | other => other
              else evalT fuel (.elifChain elifs elseB) s1
          | other => other
      | .whileS cond body _ _ => evalT fuel (.whileLoop cond body) st
      | .call func args line _ =>
          match
            (match func with
             | .ident fname _ _ =>
                 match lookupStack st.stack fname with
                 | some fn => Res.val fn st
                 | Option.none => Res.err (.nameError fname line) st
             | _ => evalT fuel (.eval func) st) with
          | .val fn s1 =>
              match evalT fuel (.evalArgs args) s1 with
              | .vals vs s2 => evalT fuel (.callFn fn vs) s2
              | .val _ s2 => .err .noEvalMethod s2
              | other => other
          | other => other
    | .seq ns =>
      match ns with
      | .nil => .val .none st
      | .cons n rest =>
          match evalT fuel (.eval n) st with
          | .val _ s1 => evalT fuel (.seq rest) s1
          | other => other
    | .evalArgs ns =>
      match ns with
      | .nil => .vals [] st
      | .cons n rest =>
          match evalT fuel (.eval n) st with
          | .val v s1 =>
              match evalT fuel (.evalArgs rest) s1 with
              | .vals vs s2 => .vals (v :: vs) s2
              | other => other
          | other => other
    | .elifChain es elseB =>
      match es with
      | .cons c body rest =>
          match evalT fuel (.eval c) st with
          | .val cv s1 =>
              if truthy cv then
                match s1.stack with
                | [] => .err .emptyStack s1
                | e :: r =>
                    match evalT fuel (.seq body) ⟨e :: e :: r, s1.out⟩ with
                    | .val _ s2 =>
                        match s2.stack with
                        | [] => .err .emptyStack s2
                        | _ :: rest2 => .val .none ⟨rest2, s2.out⟩
                    | other => other
              else evalT fuel (.elifChain rest elseB) s1
          | other => other
      | .nil =>
          match elseB with
          | .nil => .val .none st
          | .cons _ _ =>
              match st.stack with
              | [] => .err .emptyStack st
              | e :: r =>
                  match evalT fuel (.seq elseB) ⟨e :: e :: r, st.out⟩ with
                  | .val _ s2 =>
                      match s2.stack with
                      | [] => .err .emptyStack s2
                      | _ :: rest2 => .val .none ⟨rest2, s2.out⟩
                  | other => other
    | .whileLoop cond body =>
      match evalT fuel (.eval cond) st with
      | .val cv s1 =>
          if truthy cv then
            match s1.stack with
            | [] => .err .emptyStack s1
            | e :: r =>
                match evalT fuel (.seq body) ⟨e :: e :: r, s1.out⟩ with
                | .val _ s2 =>
                    match s2.stack with
                    | [] => .err .emptyStack s2
                    | _ :: rest2 => evalT fuel (.whileLoop cond body) ⟨rest2, s2.out⟩
                | other => other
          else .val .none s1
      | other => other
    | .callFn fn vs =>
      match fn with
      | .builtinPrint => .val .none ⟨st.stack, st.out ++ vs⟩
      | .func ps body env =>
          match evalT fuel (.seq body) ⟨bindParams ps vs env :: st.stack, st.out⟩ with
          | .val _ s2 =>
              match s2.stack with
              | [] => .err .emptyStack s2
              | _ :: rest2 => .val .none ⟨rest2, s2.out⟩
          | .ret v s2 =>
              match s2.stack with
              | [] => .err .emptyStack s2
              | _ :: rest2 => .val v ⟨rest2, s2.out⟩
          | other => other
      | _ => .err .notCallable st

/-- The initial interpreter state: `Interpreter.__init__` plus `run`
(`interpreter.py` lines 14-22) — a single global frame pre-binding the
builtin `print`, empty output. -/
def initSt : St := ⟨[[("print", Value.builtinPrint)]], []⟩

/-- `Interpreter.run`: execute a program's statements in order from the
initial state. A `.ret` result is a `ReturnException` escaping `run`
(a stray top-level `return`). -/
def run (fuel : Nat) (prog : NodeList) : Res :=
  evalT fuel (.seq prog) initSt

/-- Convert a literal `List` of nodes to a `NodeList`. -/
def nl : List Node → NodeList
  | [] => .nil
  | n :: rest => .cons n (nl rest)

/-- Convert a literal elif list to an `ElifList`. -/
def el : List (Node × NodeList) → ElifList
  | [] => .nil
  | (c, b) :: rest => .cons c b (el rest)

/-! ## Scope checker (`semantic.py`) -/

/-- `isinstance(node, IdentifierNode)` — the test used by
`visit_CallNode` and `eval_CallNode` to decide whether a call target is
a bare name. -/
def isIdent : Node → Bool
  | .ident _ _ _ => true
  | _ => false

/-- The checker's stack of scopes (`SymbolTable`, `semantic.py` lines
42-59): each scope holds name presence only. Head = `scopes[-1]`, the
innermost scope. -/
abbrev SymTab := List (List String)

/-- `SymbolTable.insert`: declare a name in the innermost scope. (On an
empty stack the host would raise `IndexError`; unreachable, modelled as
a no-op.) -/
def symInsert (st : SymTab) (name : String) : SymTab :=
  match st with
  | [] => []
  | s :: rest => (name :: s) :: rest

/-- `name in s` on one scope's key set. -/
def scopeHas : List String → String → Bool
  | [], _ => false
  | s :: rest, n => s == n || scopeHas rest n

/-- `SymbolTable.lookup`: name present in any live scope. -/
def symLookup : SymTab → String → Bool
  | [], _ => false
  | s :: rest, n => scopeHas s n || symLookup rest n

/-- The data carried by the `CompilerError` message of
`visit_IdentifierNode` (`semantic.py` line 101): the undeclared name and
the `lineno` of the offending node. -/
structure CErr where
  name : String
  line : Option Nat
deriving DecidableEq, Repr

mutual
/-- `SemanticAnalyzer.visit` (`semantic.py` lines 75-156) on a single
node, threading the symbol table; raising `CompilerError` is the
`.error` case. Visit order matches the source: assignment checks its
right-hand side before declaring its target; a function definition
declares its name in the current scope, then checks its body in a fresh
scope holding the parameters; `if`/`while` bodies are checked in the
enclosing scope; a call skips its target when that target is a bare
identifier, and checks the arguments. -/
def visitS : Node → SymTab → Except CErr SymTab
  | .num _ _ _, st => .ok st
  | .strLit _ _ _, st => .ok st
  | .ident name line _, st =>
      if symLookup st name then .ok st else .error ⟨name, line⟩
  | .binop l _ r _ _, st => visitS l st >>= visitS r
  | .assign name value _ _, st =>
      visitS value st >>= fun st1 => .ok (symInsert st1 name)
  | .ifS cond thenB elifs elseB _ _, st =>
      visitS cond st >>= visitL thenB >>= visitE elifs >>= visitL elseB
  | .whileS cond body _ _, st => visitS cond st >>= visitL body
  | .funcDef name params body _ _, st =>
      (visitL body (params.foldl symInsert ([] :: symInsert st name))).map
        (fun st2 => st2.tail)
  | .retS value _ _, st =>
      match value with
      | Option.none => .ok st
      | some v => visitS v st
  | .call func args _ _, st =>
      (if isIdent func then .ok st else visitS func st) >>= visitL args

/-- `for s in body: self.visit(s)` over a statement or argument list. -/
def visitL : NodeList → SymTab → Except CErr SymTab
  | .nil, st => .ok st
  | .cons n rest, st => visitS n st >>= visitL rest

/-- The elif cascade of `visit_IfNode` (`semantic.py` lines 130-133). -/
def visitE : ElifList → SymTab → Except CErr SymTab
  | .nil, st => .ok st
  | .cons c body rest, st => visitS c st >>= visitL body >>= visitE rest
end

/-- The checker's initial table: one scope pre-declaring the builtin
`print` (`SemanticAnalyzer.__init__`, `semantic.py` lines 62-65). -/
def initTab : SymTab := [["print"]]

/-- `SemanticAnalyzer.analyze` on a parsed program: `true` if the visit
completes, `false` if a `CompilerError` was raised. -/
def analyze (prog : NodeList) : Bool :=
  match visitL prog initTab with
  | .ok _ => true
  | .error _ => false

/-! ## Lexer (`lexer.py`) -/

/-- The token kinds of host `tokenize` that `tokenize_source` inspects,
plus the kinds it receives and drops (`NL`, `COMMENT`) and the
`ERRORTOKEN` kind the host generator emits at an unrecognized character
or an unterminated single-quoted string literal. -/
inductive HostTokKind where
  | NUMBER | NAME | STRING | NEWLINE | INDENT | DEDENT | OP | ENDMARKER
  | NL | COMMENT | ERRORTOKEN
deriving DecidableEq, Repr

/-- One `(tok_type, tok_str, start, end, _)` element of the host token
stream, keeping the fields `tokenize_source` reads. -/
structure HostTok where
  kind : HostTokKind
  text : String
  line : Nat
  col : Nat
deriving DecidableEq, Repr

/-- Token kinds produced for the parser (`lexer.py` lines 17-33). -/
inductive TokType where
  | NUMBER | STRING | NAME | NEWLINE | INDENT | DEDENT | OP | EOF
deriving DecidableEq, Repr

/-- `Token = namedtuple("Token", ["type", "value", "lineno", "col"])`. -/
structure Token where
  typ : TokType
  value : String
  lineno : Nat
  col : Nat
deriving DecidableEq, Repr

/-- `tokenize_source` (`lexer.py` lines 8-36) as a pure map over the host
token stream: the listed kinds are renamed, `ENDMARKER` becomes `EOF`
with empty text, and *every other kind* — including `ERRORTOKEN` — falls
into the final `continue` and is silently dropped. The function has no
failure path of its own. -/
def tokenize_source : List HostTok → List Token
  | [] => []
  | h :: rest =>
      match h.kind with
      | .NUMBER => ⟨.NUMBER, h.text, h.line, h.col⟩ :: tokenize_source rest
      | .NAME => ⟨.NAME, h.text, h.line, h.col⟩ :: tokenize_source rest
      | .STRING => ⟨.STRING, h.text, h.line, h.col⟩ :: tokenize_source rest
      | .NEWLINE => ⟨.NEWLINE, h.text, h.line, h.col⟩ :: tokenize_source rest
      | .INDENT => ⟨.INDENT, h.text, h.line, h.col⟩ :: tokenize_source rest
      | .DEDENT => ⟨.DEDENT, h.text, h.line, h.col⟩ :: tokenize_source rest
      | .OP => ⟨.OP, h.text, h.line, h.col⟩ :: tokenize_source rest
      | .ENDMARKER => ⟨.EOF, "", h.line, h.col⟩ :: tokenize_source rest
      | _ => tokenize_source rest

/-! ## Parser (`parser.py`) -/

/-- Parser state: the materialised token list and the cursor
(`Parser.__init__`: `self.tokens`, `self.pos`). -/
structure ParserSt where
  toks : List Token
  pos : Nat

/-- The synthetic token used when the cursor runs past the end
(`Parser.advance`, `parser.py` line 21). -/
def eofTok : Token := ⟨.EOF, "", 0, 0⟩

/-- `self.current`: the token at the cursor, `Token("EOF","",0,0)` past
the end. -/
def curTok (p : ParserSt) : Token := p.toks.getD p.pos eofTok

/-- `self.tokens[self.pos+1] if self.pos+1 < len(self.tokens) else None`
— the one-token peek used for assignment and call disambiguation. -/
def peekTok (p : ParserSt) : Option Token := p.toks.get? (p.pos + 1)

/-- `self.advance()`. -/
def pAdvance (p : ParserSt) : ParserSt := ⟨p.toks, p.pos + 1⟩

/-- `ParserError` data: the expectation of a failed `expect`
(`parser.py` line 33), the unexpected-factor error (line 210), and the
fuel artifact of the model. -/
inductive PErr where
  | expectedTok (typ : TokType) (val : Option String) (found : Token)
  | factorUnexpected (found : Token)
  | outOfFuel
deriving DecidableEq, Repr

/-- `self.expect(typ, val)`: take the current token if it matches, else
fail. -/
def pExpect (p : ParserSt) (typ : TokType) (val : Option String) :
    Except PErr (Token × ParserSt) :=
  let c := curTok p
  if c.typ = typ ∧ (val = Option.none ∨ val = some c.value) then
    .ok (c, pAdvance p)
  else .error (.expectedTok typ val c)

/-- The line of the defining token recorded on a node — used because
`comparison`/`arith`/`term` propagate `node.lineno` of the *left*
operand into the `BinaryOpNode` they build. -/
def nodeLine : Node → Option Nat
  | .num _ l _ | .strLit _ l _ | .ident _ l _ | .binop _ _ _ l _
  | .assign _ _ l _ | .ifS _ _ _ _ l _ | .whileS _ _ l _
  | .funcDef _ _ _ l _ | .retS _ l _ | .call _ _ l _ => l

/-- Column counterpart of `nodeLine`. -/
def nodeCol : Node → Option Nat
  | .num _ _ c | .strLit _ _ c | .ident _ _ c | .binop _ _ _ _ c
  | .assign _ _ _ c | .ifS _ _ _ _ _ c | .whileS _ _ _ c
  | .funcDef _ _ _ _ c | .retS _ _ c | .call _ _ _ c => c

/-- Digits of a decimal numeral to a natural number (host `int` on the
body of a well-formed decimal `NUMBER` token). -/
def digitsToNat (cs : List Char) : Nat :=
  cs.foldl (fun acc c => acc * 10 + (c.toNat - 48)) 0

/-- `float(tok.value) if '.' in tok.value else int(tok.value)`
(`parser.py` line 191), modelling the host conversions on decimal
literals; the float value is the exact decimal rational. -/
def numOfTokStr (s : String) : NumVal :=
  if s.data.contains '.' then
    let intPart := s.data.takeWhile (· ≠ '.')
    let fracPart := (s.data.dropWhile (· ≠ '.')).drop 1
    .float ((digitsToNat intPart : ℚ) +
      (digitsToNat fracPart : ℚ) / ((10 : ℚ) ^ fracPart.length))
  else .int (digitsToNat s.data)

/-- `ast.literal_eval` on a string token (`parser.py` line 194),
modelled for escape-free quoted literals: strip the two quote
characters. -/
def literalEval (s : String) : String := (s.drop 1).dropRight 1

/-- Work items of the recursive-descent parser, one per parsing loop or
nonterminal of `parser.py`; the single fuelled function `parseT` below
plays the role of the mutually recursive methods. -/
inductive PTask where
  /-- `Parser.parse`: statements until `EOF`, skipping `NEWLINE`s. -/
  | progT
  /-- `Parser.statement`. -/
  | stmtT
  /-- `Parser.assignment`. -/
  | assignT
  /-- `Parser.if_stmt`. -/
  | ifStmtT
  /-- The `elif`-loop and optional `else` of `if_stmt` (lines 84-99). -/
  | ifTailT
  /-- `Parser.while_stmt`. -/
  | whileT
  /-- `Parser.function_def`. -/
  | funcDefT
  /-- The `while self.accept("OP", ",")` parameter loop (lines 120-122). -/
  | paramsLoopT
  /-- `Parser.return_stmt`. -/
  | returnT
  /-- `Parser.block`: statements until `DEDENT`/`EOF`, then `DEDENT`. -/
  | blockT
  /-- `Parser.expression` = `Parser.comparison`. -/
  | exprT
  /-- The comparison-operator loop with the parsed left operand. -/
  | compLoopT (left : Node)
  /-- `Parser.arith`. -/
  | arithT
  /-- The additive-operator loop with the parsed left operand. -/
  | arithLoopT (left : Node)
  /-- `Parser.term`. -/
  | termT
  /-- The multiplicative-operator loop with the parsed left operand. -/
  | termLoopT (left : Node)
  /-- `Parser.factor`. -/
  | factorT
  /-- `Parser.call`. -/
  | callT
  /-- The `while self.accept("OP", ",")` argument loop (lines 218-219). -/
  | argsLoopT

/-- Parser results: a node, a node list, a parameter-name list, the
`(elifs, else)` pair of an `if`-statement tail, or a raised
`ParserError`. -/
inductive PRes where
  | node (n : Node) (p : ParserSt)
  | nodes (ns : NodeList) (p : ParserSt)
  | names (ns : List String) (p : ParserSt)
  | iftail (es : ElifList) (elseB : NodeList) (p : ParserSt)
  | perr (e : PErr)

/-- The recursive-descent parser (`parser.py` lines 36-221) as one
fuelled function. Each task mirrors the corresponding method; token
cursor movement, one-token peeks and node positions (the position of the
defining token, the left operand's position for binary operators) follow
the source line by line. -/
def parseT : Nat → PTask → ParserSt → PRes
  | 0, _, _ => .perr .outOfFuel
  | fuel + 1, t, p =>
    match t with
    | .progT =>
      let c := curTok p
      if c.typ = .EOF then .nodes .nil p
      else if c.typ = .NEWLINE then parseT fuel .progT (pAdvance p)
      else
        match parseT fuel .stmtT p with
        | .node n p1 =>
            match parseT fuel .progT p1 with
            | .nodes ns p2 => .nodes (.cons n ns) p2
            | other => other
        | other => other
    | .stmtT =>
      let c := curTok p
      if c.typ = .NAME ∧ c.value = "if" then parseT fuel .ifStmtT p
      else if c.typ = .NAME ∧ c.value = "while" then parseT fuel .whileT p
      else if c.typ = .NAME ∧ c.value = "def" then parseT fuel .funcDefT p
      else if c.typ = .NAME ∧ c.value = "return" then parseT fuel .returnT p
      else if c.typ = .NAME ∧
          (match peekTok p with
           | some nt => decide (nt.typ = .OP ∧ nt.value = "=")
           | Option.none => false) = true then
        parseT fuel .assignT p
      else
        match parseT fuel .exprT p with
        | .node n p1 =>
            if (curTok p1).typ = .NEWLINE then .node n (pAdvance p1)
            else .node n p1
        | other => other
    | .assignT =>
      match pExpect p .NAME Option.none with
      | .error e => .perr e
      | .ok (nameTok, p1) =>
          match pExpect p1 .OP (some "=") with
          | .error e => .perr e
          | .ok (_, p2) =>
              match parseT fuel .exprT p2 with
              | .node v p3 =>
                  let p4 := if (curTok p3).typ = .NEWLINE then pAdvance p3 else p3
                  .node (.assign nameTok.value v (some nameTok.lineno)
                    (some nameTok.col)) p4
              | other => other
    | .ifStmtT =>
      match pExpect p .NAME (some "if") with
      | .error e => .perr e
      | .ok (ifTok, p1) =>
          match parseT fuel .exprT p1 with
          | .node cond p2 =>
              match pExpect p2 .OP (some ":") with
              | .error e => .perr e
              | .ok (_, p3) =>
                  match pExpect p3 .NEWLINE Option.none with
                  | .error e => .perr e
                  | .ok (_, p4) =>
                      match pExpect p4 .INDENT Option.none with
                      | .error e => .perr e
                      | .ok (_, p5) =>
                          match parseT fuel .blockT p5 with
                          | .nodes thenB p6 =>
                              match parseT fuel .ifTailT p6 with
                              | .iftail es elseB p7 =>
                                  .node (.ifS cond thenB es elseB
                                    (some ifTok.lineno) (some ifTok.col)) p7
                              | other => other
                          | other => other
          | other => other
    | .ifTailT =>
      let c := curTok p
      if c.typ = .NAME ∧ c.value = "elif" then
        let p1 := pAdvance p
        match parseT fuel .exprT p1 with
        | .node econd p2 =>
            match pExpect p2 .OP (some ":") with
            | .error e => .perr e
            | .ok (_, p3) =>
                match pExpect p3 .NEWLINE Option.none with
                | .error e => .perr e
                | .ok (_, p4) =>
                    match pExpect p4 .INDENT Option.none with
                    | .error e => .perr e
                    | .ok (_, p5) =>
                        match parseT fuel .blockT p5 with
                        | .nodes ebody p6 =>
                            match parseT fuel .ifTailT p6 with
                            | .iftail es elseB p7 =>
                                .iftail (.cons econd ebody es) elseB p7
                            | other => other
                        | other => other
        | other => other
      else if c.typ = .NAME ∧ c.value = "else" then
        let p1 := pAdvance p
        match pExpect p1 .OP (some ":") with
        | .error e => .perr e
        | .ok (_, p2) =>
            match pExpect p2 .NEWLINE Option.none with
            | .error e => .perr e
            | .ok (_, p3) =>
                match pExpect p3 .INDENT Option.none with
                | .error e => .perr e
                | .ok (_, p4) =>
                    match parseT fuel .blockT p4 with
                    | .nodes elseB p5 => .iftail .nil elseB p5
                    | other => other
      else .iftail .nil .nil p
    | .whileT =>
      match pExpect p .NAME (some "while") with
      | .error e => .perr e
      | .ok (whileTok, p1) =>
          match parseT fuel .exprT p1 with
          | .node cond p2 =>
              match pExpect p2 .OP (some ":") with
              | .error e => .perr e
              | .ok (_, p3) =>
                  match pExpect p3 .NEWLINE Option.none with
                  | .error e => .perr e
                  | .ok (_, p4) =>
                      match pExpect p4 .INDENT Option.none with
                      | .error e => .perr e
                      | .ok (_, p5) =>
                          match parseT fuel .blockT p5 with
                          | .nodes body p6 =>
                              .node (.whileS cond body (some whileTok.lineno)
                                (some whileTok.col)) p6
                          | other => other
          | other => other
    | .funcDefT =>
      match pExpect p .NAME (some "def") with
      | .error e => .perr e
      | .ok (defTok, p1) =>
          match pExpect p1 .NAME Option.none with
          | .error e => .perr e
          | .ok (nameTok, p2) =>
              match pExpect p2 .OP (some "(") with
              | .error e => .perr e
              | .ok (_, p3) =>
                  match
                    (if (curTok p3).typ = .OP ∧ (curTok p3).value = ")" then
                      PRes.names [] p3
                    else
                      match pExpect p3 .NAME Option.none with
                      | .error e => .perr e
                      | .ok (paramTok, p4) =>
                          match parseT fuel .paramsLoopT p4 with
                          | .names ps p5 => .names (paramTok.value :: ps) p5
                          | other => other) with
                  | .names params p6 =>
                      match pExpect p6 .OP (some ")") with
                      | .error e => .perr e
                      | .ok (_, p7) =>
                          match pExpect p7 .OP (some ":") with
                          | .error e => .perr e
                          | .ok (_, p8) =>
                              match pExpect p8 .NEWLINE Option.none with
                              | .error e => .perr e
                              | .ok (_, p9) =>
                                  match pExpect p9 .INDENT Option.none with
                                  | .error e => .perr e
                                  | .ok (_, p10) =>
                                      match parseT fuel .blockT p10 with
                                      | .nodes body p11 =>
                                          .node (.funcDef nameTok.value params
                                            body (some defTok.lineno)
                                            (some defTok.col)) p11
                                      | other => other
                  | other => other
    | .paramsLoopT =>
      let c := curTok p
      if c.typ = .OP ∧ c.value = "," then
        match pExpect (pAdvance p) .NAME Option.none with
        | .error e => .perr e
        | .ok (paramTok, p1) =>
            match parseT fuel .paramsLoopT p1 with
            | .names ps p2 => .names (paramTok.value :: ps) p2
            | other => other
      else .names [] p
    | .returnT =>
      match pExpect p .NAME (some "return") with
      | .error e => .perr e
      | .ok (retTok, p1) =>
          if (curTok p1).typ ≠ .NEWLINE then
            match parseT fuel .exprT p1 with
            | .node v p2 =>
                let p3 := if (curTok p2).typ = .NEWLINE then pAdvance p2 else p2
                .node (.retS (some v) (some retTok.lineno) (some retTok.col)) p3
            | other => other
          else
            let p3 := if (curTok p1).typ = .NEWLINE then pAdvance p1 else p1
            .node (.retS Option.none (some retTok.lineno) (some retTok.col)) p3
    | .blockT =>
      let c := curTok p
      if c.typ = .DEDENT ∨ c.typ = .EOF then
        match pExpect p .DEDENT Option.none with
        | .error e => .perr e
        | .ok (_, p1) => .nodes .nil p1
      else if c.typ = .NEWLINE then parseT fuel .blockT (pAdvance p)
      else
        match parseT fuel .stmtT p with
        | .node n p1 =>
            match parseT fuel .blockT p1 with
            | .nodes ns p2 => .nodes (.cons n ns) p2
            | other => other
        | other => other
    | .exprT =>
      match parseT fuel .arithT p with
      | .node left p1 => parseT fuel (.compLoopT left) p1
      | other => other
    | .compLoopT left =>
      let c := curTok p
      if c.typ = .OP ∧ (c.value = "==" ∨ c.value = "!=" ∨ c.value = "<" ∨
          c.value = "<=" ∨ c.value = ">" ∨ c.value = ">=") then
        match parseT fuel .arithT (pAdvance p) with
        | .node right p1 =>
            parseT fuel
              (.compLoopT (.binop left c.value right (nodeLine left)
                (nodeCol left))) p1
        | other => other
      else .node left p
    | .arithT =>
      match parseT fuel .termT p with
      | .node left p1 => parseT fuel (.arithLoopT left) p1
      | other => other
    | .arithLoopT left =>
      let c := curTok p
      if c.typ = .OP ∧ (c.value = "+" ∨ c.value = "-") then
        match parseT fuel .termT (pAdvance p) with
        | .node right p1 =>
            parseT fuel
              (.arithLoopT (.binop left c.value right (nodeLine left)
                (nodeCol left))) p1
        | other => other
      else .node left p
    | .termT =>
      match parseT fuel .factorT p with
      | .node left p1 => parseT fuel (.termLoopT left) p1
      | other => other
    | .termLoopT left =>
      let c := curTok p
      if c.typ = .OP ∧ (c.value = "*" ∨ c.value = "/") then
        match parseT fuel .factorT (pAdvance p) with
        | .node right p1 =>
            parseT fuel
              (.termLoopT (.binop left c.value right (nodeLine left)
                (nodeCol left))) p1
        | other => other
      else .node left p
    | .factorT =>
      let c := curTok p
      if c.typ = .NUMBER then
        .node (.num (numOfTokStr c.value) (some c.lineno) (some c.col))
          (pAdvance p)
      else if c.typ = .STRING then
        .node (.strLit (literalEval c.value) (some c.lineno) (some c.col))
          (pAdvance p)
      else if c.typ = .NAME then
        match peekTok p with
        | some nt =>
            if nt.typ = .OP ∧ nt.value = "(" then parseT fuel .callT p
            else .node (.ident c.value (some c.lineno) (some c.col)) (pAdvance p)
        | Option.none =>
            .node (.ident c.value (some c.lineno) (some c.col)) (pAdvance p)
      else if c.typ = .OP ∧ c.value = "(" then
        match parseT fuel .exprT (pAdvance p) with
        | .node n p1 =>
            match pExpect p1 .OP (some ")") with
            | .error e => .perr e
            | .ok (_, p2) => .node n p2
        | other => other
      else .perr (.factorUnexpected c)
    | .callT =>
      match pExpect p .NAME Option.none with
      | .error e => .perr e
      | .ok (nameTok, p1) =>
          match pExpect p1 .OP (some "(") with
          | .error e => .perr e
          | .ok (_, p2) =>
              match
                (if (curTok p2).typ = .OP ∧ (curTok p2).value = ")" then
                  PRes.nodes .nil p2
                else
                  match parseT fuel .exprT p2 with
                  | .node a p3 =>
                      match parseT fuel .argsLoopT p3 with
                      | .nodes as_ p4 => .nodes (.cons a as_) p4
                      | other => other
                  | other => other) with
              | .nodes args p5 =>
                  match pExpect p5 .OP (some ")") with
                  | .error e => .perr e
                  | .ok (_, p6) =>
                      .node (.call (.ident nameTok.value (some nameTok.lineno)
                        (some nameTok.col)) args (some nameTok.lineno)
                        (some nameTok.col)) p6
              | other => other
    | .argsLoopT =>
      let c := curTok p
      if c.typ = .OP ∧ c.value = "," then
        match parseT fuel .exprT (pAdvance p) with
        | .node a p1 =>
            match parseT fuel .argsLoopT p1 with
            | .nodes as_ p2 => .nodes (.cons a as_) p2
            | other => other
        | other => other
      else .nodes .nil p

/-- `parse(source)` given the already-tokenized stream: run the program
task from position 0 (`Parser.parse`, `parser.py` lines 36-43 and
224-226). -/
def parseProgram (fuel : Nat) (toks : List Token) : Except PErr NodeList :=
  match parseT fuel .progT ⟨toks, 0⟩ with
  | .nodes ns _ => .ok ns
  | .perr e => .error e
  | _ => .error .outOfFuel

/-! ## Syntactic predicates about names

These predicates mirror which occurrences of an identifier the checker
*visits as a value* and which constructs *declare* a name, so that the
checker's rejection guarantee can be stated. -/

mutual
/-- `n` occurs somewhere in the node, in a position the checker visits as
a value read: every `IdentifierNode` except a bare-identifier call
target. Descends into function bodies. -/
def readsS (n : String) : Node → Bool
  | .num _ _ _ => false
  | .strLit _ _ _ => false
  | .ident m _ _ => m == n
  | .binop l _ r _ _ => readsS n l || readsS n r
  | .assign _ v _ _ => readsS n v
  | .ifS c tb es eb _ _ => readsS n c || readsL n tb || readsE n es || readsL n eb
  | .whileS c b _ _ => readsS n c || readsL n b
  | .funcDef _ _ body _ _ => readsL n body
  | .retS v _ _ => match v with | Option.none => false | some e => readsS n e
  | .call f args _ _ =>
      (if isIdent f then false else readsS n f) || readsL n args

/-- `readsS` over a statement list. -/
def readsL (n : String) : NodeList → Bool
  | .nil => false
  | .cons s rest => readsS n s || readsL n rest

/-- `readsS` over an elif cascade. -/
def readsE (n : String) : ElifList → Bool
  | .nil => false
  | .cons c b rest => readsS n c || readsL n b || readsE n rest
end

mutual
/-- A value read of `n` *recorded at line `ln`* occurs in the node (in a
checker-visited position, as in `readsS`). -/
def readsAtS (n : String) (ln : Option Nat) : Node → Bool
  | .num _ _ _ => false
  | .strLit _ _ _ => false
  | .ident m l _ => m == n && l == ln
  | .binop l _ r _ _ => readsAtS n ln l || readsAtS n ln r
  | .assign _ v _ _ => readsAtS n ln v
  | .ifS c tb es eb _ _ =>
      readsAtS n ln c || readsAtL n ln tb || readsAtE n ln es || readsAtL n ln eb
  | .whileS c b _ _ => readsAtS n ln c || readsAtL n ln b
  | .funcDef _ _ body _ _ => readsAtL n ln body
  | .retS v _ _ => match v with | Option.none => false | some e => readsAtS n ln e
  | .call f args _ _ =>
      (if isIdent f then false else readsAtS n ln f) || readsAtL n ln args

/-- `readsAtS` over a statement list. -/
def readsAtL (n : String) (ln : Option Nat) : NodeList → Bool
  | .nil => false
  | .cons s rest => readsAtS n ln s || readsAtL n ln rest

/-- `readsAtS` over an elif cascade. -/
def readsAtE (n : String) (ln : Option Nat) : ElifList → Bool
  | .nil => false
  | .cons c b rest => readsAtS n ln c || readsAtL n ln b || readsAtE n ln rest
end

mutual
/-- `n` is declared by the node *at the current scope level*: as an
assignment target or a function-definition name, anywhere the checker's
traversal of this node stays in the current scope. Parameters and
declarations inside a function body do not count — they live in the
function's own scope, which is popped. -/
def bindsS (n : String) : Node → Bool
  | .num _ _ _ => false
  | .strLit _ _ _ => false
  | .ident _ _ _ => false
  | .binop l _ r _ _ => bindsS n l || bindsS n r
  | .assign m v _ _ => m == n || bindsS n v
  | .ifS c tb es eb _ _ => bindsS n c || bindsL n tb || bindsE n es || bindsL n eb
  | .whileS c b _ _ => bindsS n c || bindsL n b
  | .funcDef m _ _ _ _ => m == n
  | .retS v _ _ => match v with | Option.none => false | some e => bindsS n e
  | .call f args _ _ => bindsS n f || bindsL n args

/-- `bindsS` over a statement list. -/
def bindsL (n : String) : NodeList → Bool
  | .nil => false
  | .cons s rest => bindsS n s || bindsL n rest

/-- `bindsS` over an elif cascade. -/
def bindsE (n : String) : ElifList → Bool
  | .nil => false
  | .cons c b rest => bindsS n c || bindsL n b || bindsE n rest
end

mutual
/-- The node contains, at the current scope level, an *offending use* of
`n`: either a direct value read of `n`, or a function definition whose
parameters do not include `n` and whose body both never declares `n` at
its own level and contains (recursively) an offending use. Such a use is
one where `n` is unbound in every scope enclosing it, provided `n` is
also unbound in the scopes enclosing this node. -/
def offHereS (n : String) : Node → Bool
  | .num _ _ _ => false
  | .strLit _ _ _ => false
  | .ident m _ _ => m == n
  | .binop l _ r _ _ => offHereS n l || offHereS n r
  | .assign _ v _ _ => offHereS n v
  | .ifS c tb es eb _ _ =>
      offHereS n c || offHereL n tb || offHereE n es || offHereL n eb
  | .whileS c b _ _ => offHereS n c || offHereL n b
  | .funcDef _ ps body _ _ =>
      !(scopeHas ps n) && !(bindsL n body) && offHereL n body
  | .retS v _ _ => match v with | Option.none => false | some e => offHereS n e
  | .call f args _ _ =>
      (if isIdent f then false else offHereS n f) || offHereL n args

/-- `offHereS` over a statement list. -/
def offHereL (n : String) : NodeList → Bool
  | .nil => false
  | .cons s rest => offHereS n s || offHereL n rest

/-- `offHereS` over an elif cascade. -/
def offHereE (n : String) : ElifList → Bool
  | .nil => false
  | .cons c b rest => offHereS n c || offHereL n b || offHereE n rest
end

/-- The program reads `n` as a value at a position where `n` is declared
in no enclosing scope: `n` is never declared at the program's own level,
and an offending use occurs (see `offHereS`). -/
def offends (n : String) (prog : NodeList) : Bool :=
  !(bindsL n prog) && offHereL n prog

/-- The checker raised a `CompilerError`. -/
def isErr (r : Except CErr SymTab) : Bool :=
  match r with
  | .ok _ => false
  | .error _ => true

mutual
/-- `n` occurs as an assignment target (`AssignmentNode.name`) anywhere
in the node, at any depth. -/
def assignsS (n : String) : Node → Bool
  | .num _ _ _ => false
  | .strLit _ _ _ => false
  | .ident _ _ _ => false
  | .binop l _ r _ _ => assignsS n l || assignsS n r
  | .assign m v _ _ => m == n || assignsS n v
  | .ifS c tb es eb _ _ =>
      assignsS n c || assignsL n tb || assignsE n es || assignsL n eb
  | .whileS c b _ _ => assignsS n c || assignsL n b
  | .funcDef _ _ body _ _ => assignsL n body
  | .retS v _ _ => match v with | Option.none => false | some e => assignsS n e
  | .call f args _ _ => assignsS n f || assignsL n args

/-- `assignsS` over a statement list. -/
def assignsL (n : String) : NodeList → Bool
  | .nil => false
  | .cons s rest => assignsS n s || assignsL n rest

/-- `assignsS` over an elif cascade. -/
def assignsE (n : String) : ElifList → Bool
  | .nil => false
  | .cons c b rest => assignsS n c || assignsL n b || assignsE n rest
end

mutual
/-- `n` occurs as a declared parameter of some function definition
anywhere in the node, at any depth. -/
def paramS (n : String) : Node → Bool
  | .num _ _ _ => false
  | .strLit _ _ _ => false
  | .ident _ _ _ => false
  | .binop l _ r _ _ => paramS n l || paramS n r
  | .assign _ v _ _ => paramS n v
  | .ifS c tb es eb _ _ => paramS n c || paramL n tb || paramE n es || paramL n eb
  | .whileS c b _ _ => paramS n c || paramL n b
  | .funcDef _ ps body _ _ => scopeHas ps n || paramL n body
  | .retS v _ _ => match v with | Option.none => false | some e => paramS n e
  | .call f args _ _ => paramS n f || paramL n args

/-- `paramS` over a statement list. -/
def paramL (n : String) : NodeList → Bool
  | .nil => false
  | .cons s rest => paramS n s || paramL n rest

/-- `paramS` over an elif cascade. -/
def paramE (n : String) : ElifList → Bool
  | .nil => false
  | .cons c b rest => paramS n c || paramL n b || paramE n rest
end

/-! ## Checker lemmas -/

/-- An `Except` bind that failed: either the first action failed, or it
succeeded and the continuation failed. -/
theorem exceptBindError {α β γ : Type} (a : Except γ α) (f : α → Except γ β)
    (e : γ) (h : a >>= f = .error e) :
    a = .error e ∨ ∃ x, a = .ok x ∧ f x = .error e := by
  cases a <;> simp_all [bind, Except.bind]

/-- An `Except` bind that succeeded: both stages succeeded. -/
theorem exceptBindOk {α β γ : Type} (a : Except γ α) (f : α → Except γ β)
    (y : β) (h : a >>= f = .ok y) : ∃ x, a = .ok x ∧ f x = .ok y := by
  cases a <;> simp_all [bind, Except.bind]

/-- `Except.map` preserves failure. -/
theorem exceptMapError {α β γ : Type} (a : Except γ α) (g : α → β)
    (e : γ) (h : a.map g = .error e) : a = .error e := by
  cases a <;> simp_all [Except.map]

/-- `Except.map` on a success. -/
theorem exceptMapOk {α β γ : Type} (a : Except γ α) (g : α → β)
    (y : β) (h : a.map g = .ok y) : ∃ x, a = .ok x ∧ y = g x := by
  cases a <;> simp_all [Except.map]

/-- Folding `symInsert` over the parameter list only grows the innermost
scope: the outer scopes are untouched, and a name that is neither in the
seed scope nor among the parameters stays absent. -/
theorem foldlSymInsert (ps : List String) (s : List String) (rest : SymTab) :
    ∃ s', ps.foldl symInsert (s :: rest) = s' :: rest ∧
      ∀ m, scopeHas ps m = false → scopeHas s m = false →
        scopeHas s' m = false := by
  induction ps generalizing s with
  | nil => exact ⟨s, rfl, fun m _ hs => hs⟩
  | cons p ps ih =>
      obtain ⟨s', hfold, habs⟩ := ih (p :: s)
      simp only [scopeHas, Bool.or_eq_false_iff] at *
      refine ⟨s', by simpa [symInsert] using hfold, fun m hm hs => ?_⟩
      refine habs m hm.2 ?_
      simp [scopeHas, hm.1, hs]

/-- Replacing the innermost scope by one in which the name is still
absent keeps the lookup failing. -/
theorem symLookupStep {h0 h1 : List String} {tl : SymTab} {n : String}
    (p : scopeHas h0 n = false → scopeHas h1 n = false)
    (h : symLookup (h0 :: tl) n = false) : symLookup (h1 :: tl) n = false := by
  simp only [symLookup, Bool.or_eq_false_iff] at h ⊢
  exact ⟨p h.1, h.2⟩

mutual
/-- Any `CompilerError` the checker raises while visiting a node carries
the name and line of an actual value-read in that node: errors are
raised only at `visit_IdentifierNode`, and identifier call targets are
never visited. -/
def errorReadS : (x : Node) → ∀ st e, visitS x st = .error e →
    readsAtS e.name e.line x = true
  | .num _ _ _ => by intro st e h; simp [visitS] at h
  | .strLit _ _ _ => by intro st e h; simp [visitS] at h
  | .ident m l c => by
      intro st e h
      simp only [visitS] at h
      split at h
      · exact absurd h (by simp)
      · obtain rfl : CErr.mk m l = e := by simpa using h
        simp [readsAtS]
  | .binop l op r ln cl => by
      intro st e h
      simp only [visitS] at h
      rcases exceptBindError _ _ _ h with h1 | ⟨st1, _, h2⟩
      · simp [readsAtS, errorReadS l st e h1]
      · simp [readsAtS, errorReadS r st1 e h2]
  | .assign m v ln cl => by
      intro st e h
      simp only [visitS] at h
      rcases exceptBindError _ _ _ h with h1 | ⟨st1, _, h2⟩
      · simp [readsAtS, errorReadS v st e h1]
      · simp at h2
  | .ifS c tb es eb ln cl => by
      intro st e h
      simp only [visitS] at h
      rcases exceptBindError _ _ _ h with h1 | ⟨st3, h3, h4⟩
      · rcases exceptBindError _ _ _ h1 with h5 | ⟨st2, h6, h7⟩
        · rcases exceptBindError _ _ _ h5 with h8 | ⟨st1, h9, h10⟩
          · simp [readsAtS, errorReadS c st e h8]
          · simp [readsAtS, errorReadL tb st1 e h10]
        · simp [readsAtS, errorReadE es st2 e h7]
      · simp [readsAtS, errorReadL eb st3 e h4]
  | .whileS c b ln cl => by
      intro st e h
      simp only [visitS] at h
      rcases exceptBindError _ _ _ h with h1 | ⟨st1, _, h2⟩
      · simp [readsAtS, errorReadS c st e h1]
      · simp [readsAtS, errorReadL b st1 e h2]
  | .funcDef m ps body ln cl => by
      intro st e h
      simp only [visitS] at h
      have h1 := exceptMapError _ _ _ h
      simp [readsAtS, errorReadL body _ e h1]
  | .retS Option.none ln cl => by intro st e h; simp [visitS] at h
  | .retS (some v) ln cl => by
      intro st e h
      simp only [visitS] at h
      simp [readsAtS, errorReadS v st e h]
  | .call f args ln cl => by
      intro st e h
      simp only [visitS] at h
      rcases exceptBindError _ _ _ h with h1 | ⟨st1, h2, h3⟩
      · by_cases hf : isIdent f
        · rw [if_pos hf] at h1; exact absurd h1 (by simp)
        · rw [if_neg hf] at h1
          simp [readsAtS, hf, errorReadS f st e h1]
      · simp [readsAtS, errorReadL args st1 e h3]

/-- `errorReadS` over a statement list. -/
def errorReadL : (xs : NodeList) → ∀ st e, visitL xs st = .error e →
    readsAtL e.name e.line xs = true
  | .nil => by intro st e h; simp [visitL] at h
  | .cons s rest => by
      intro st e h
      simp only [visitL] at h
      rcases exceptBindError _ _ _ h with h1 | ⟨st1, _, h2⟩
      · simp [readsAtL, errorReadS s st e h1]
      · simp [readsAtL, errorReadL rest st1 e h2]

/-- `errorReadS` over an elif cascade. -/
def errorReadE : (xs : ElifList) → ∀ st e, visitE xs st = .error e →
    readsAtE e.name e.line xs = true
  | .nil => by intro st e h; simp [visitE] at h
  | .cons c b rest => by
      intro st e h
      simp only [visitE] at h
      rcases exceptBindError _ _ _ h with h1 | ⟨st2, h3, h4⟩
      · rcases exceptBindError _ _ _ h1 with h5 | ⟨st1, _, h6⟩
        · simp [readsAtE, errorReadS c st e h5]
        · simp [readsAtE, errorReadL b st1 e h6]
      · simp [readsAtE, errorReadE rest st2 e h4]
end

mutual
/-- A successful visit only grows the innermost scope, and only with
names the node declares at its own level (`bindsS`); the outer scopes
come back exactly as they were. -/
def presS : (x : Node) → ∀ h0 tl st', visitS x (h0 :: tl) = .ok st' →
    ∃ h', st' = h' :: tl ∧ ∀ m, bindsS m x = false →
      scopeHas h0 m = false → scopeHas h' m = false
  | .num _ _ _ => by
      intro h0 tl st' h
      simp only [visitS] at h
      exact ⟨h0, by simpa using h.symm, fun m _ hm => hm⟩
  | .strLit _ _ _ => by
      intro h0 tl st' h
      simp only [visitS] at h
      exact ⟨h0, by simpa using h.symm, fun m _ hm => hm⟩
  | .ident nm l c => by
      intro h0 tl st' h
      simp only [visitS] at h
      split at h
      · exact ⟨h0, by simpa using h.symm, fun m _ hm => hm⟩
      · exact absurd h (by simp)
  | .binop l op r ln cl => by
      intro h0 tl st' h
      simp only [visitS] at h
      obtain ⟨st1, hl, hr⟩ := exceptBindOk _ _ _ h
      obtain ⟨h1, rfl, p1⟩ := presS l h0 tl st1 hl
      obtain ⟨h2, rfl, p2⟩ := presS r h1 tl st' hr
      refine ⟨h2, rfl, fun m hb hm => ?_⟩
      simp only [bindsS, Bool.or_eq_false_iff] at hb
      exact p2 m hb.2 (p1 m hb.1 hm)
  | .assign nm v ln cl => by
      intro h0 tl st' h
      simp only [visitS] at h
      obtain ⟨st1, hv, hrest⟩ := exceptBindOk _ _ _ h
      obtain ⟨h1, rfl, p1⟩ := presS v h0 tl st1 hv
      obtain rfl : symInsert (h1 :: tl) nm = st' := by simpa using hrest
      refine ⟨nm :: h1, by simp [symInsert], fun m hb hm => ?_⟩
      simp only [bindsS, Bool.or_eq_false_iff] at hb
      simp [scopeHas, hb.1, p1 m hb.2 hm]
  | .ifS c tb es eb ln cl => by
      intro h0 tl st' h
      simp only [visitS] at h
      obtain ⟨st3, h3, h4⟩ := exceptBindOk _ _ _ h
      obtain ⟨st2, h5, h6⟩ := exceptBindOk _ _ _ h3
      obtain ⟨st1, h7, h8⟩ := exceptBindOk _ _ _ h5
      obtain ⟨g1, rfl, p1⟩ := presS c h0 tl st1 h7
      obtain ⟨g2, rfl, p2⟩ := presL tb g1 tl st2 h8
      obtain ⟨g3, rfl, p3⟩ := presE es g2 tl st3 h6
      obtain ⟨g4, rfl, p4⟩ := presL eb g3 tl st' h4
      refine ⟨g4, rfl, fun m hb hm => ?_⟩
      simp only [bindsS, Bool.or_eq_false_iff] at hb
      exact p4 m hb.2 (p3 m hb.1.2 (p2 m hb.1.1.2 (p1 m hb.1.1.1 hm)))
  | .whileS c b ln cl => by
      intro h0 tl st' h
      simp only [visitS] at h
      obtain ⟨st1, hl, hr⟩ := exceptBindOk _ _ _ h
      obtain ⟨h1, rfl, p1⟩ := presS c h0 tl st1 hl
      obtain ⟨h2, rfl, p2⟩ := presL b h1 tl st' hr
      refine ⟨h2, rfl, fun m hb hm => ?_⟩
      simp only [bindsS, Bool.or_eq_false_iff] at hb
      exact p2 m hb.2 (p1 m hb.1 hm)
  | .funcDef nm ps body ln cl => by
      intro h0 tl st' h
      simp only [visitS] at h
      obtain ⟨stOut, hbody, hst'⟩ := exceptMapOk _ _ _ h
      obtain ⟨sPs, hfold, _⟩ := foldlSymInsert ps [] ((nm :: h0) :: tl)
      rw [show symInsert (h0 :: tl) nm = (nm :: h0) :: tl from rfl, hfold] at hbody
      obtain ⟨h'', hout, _⟩ := presL body sPs ((nm :: h0) :: tl) stOut hbody
      subst hout
      subst hst'
      refine ⟨nm :: h0, rfl, fun m hb hm => ?_⟩
      simp only [bindsS] at hb
      simp [scopeHas, hb, hm]
  | .retS Option.none ln cl => by
      intro h0 tl st' h
      simp only [visitS] at h
      exact ⟨h0, by simpa using h.symm, fun m _ hm => hm⟩
  | .retS (some v) ln cl => by
      intro h0 tl st' h
      simp only [visitS] at h
      obtain ⟨h1, rfl, p1⟩ := presS v h0 tl st' h
      exact ⟨h1, rfl, fun m hb hm => p1 m (by simpa [bindsS] using hb) hm⟩
  | .call f args ln cl => by
      intro h0 tl st' h
      simp only [visitS] at h
      obtain ⟨st1, hf, hargs⟩ := exceptBindOk _ _ _ h
      by_cases hi : isIdent f
      · rw [if_pos hi] at hf
        obtain rfl : (h0 :: tl : SymTab) = st1 := by simpa using hf
        obtain ⟨h2, rfl, p2⟩ := presL args h0 tl st' hargs
        refine ⟨h2, rfl, fun m hb hm => ?_⟩
        simp only [bindsS, Bool.or_eq_false_iff] at hb
        exact p2 m hb.2 hm
      · rw [if_neg hi] at hf
        obtain ⟨h1, rfl, p1⟩ := presS f h0 tl st1 hf
        obtain ⟨h2, rfl, p2⟩ := presL args h1 tl st' hargs
        refine ⟨h2, rfl, fun m hb hm => ?_⟩
        simp only [bindsS, Bool.or_eq_false_iff] at hb
        exact p2 m hb.2 (p1 m hb.1 hm)

/-- `presS` over a statement list. -/
def presL : (xs : NodeList) → ∀ h0 tl st', visitL xs (h0 :: tl) = .ok st' →
    ∃ h', st' = h' :: tl ∧ ∀ m, bindsL m xs = false →
      scopeHas h0 m = false → scopeHas h' m = false
  | .nil => by
      intro h0 tl st' h
      simp only [visitL] at h
      exact ⟨h0, by simpa using h.symm, fun m _ hm => hm⟩
  | .cons s rest => by
      intro h0 tl st' h
      simp only [visitL] at h
      obtain ⟨st1, hs, hrest⟩ := exceptBindOk _ _ _ h
      obtain ⟨h1, rfl, p1⟩ := presS s h0 tl st1 hs
      obtain ⟨h2, rfl, p2⟩ := presL rest h1 tl st' hrest
      refine ⟨h2, rfl, fun m hb hm => ?_⟩
      simp only [bindsL, Bool.or_eq_false_iff] at hb
      exact p2 m hb.2 (p1 m hb.1 hm)

/-- `presS` over an elif cascade. -/
def presE : (xs : ElifList) → ∀ h0 tl st', visitE xs (h0 :: tl) = .ok st' →
    ∃ h', st' = h' :: tl ∧ ∀ m, bindsE m xs = false →
      scopeHas h0 m = false → scopeHas h' m = false
  | .nil => by
      intro h0 tl st' h
      simp only [visitE] at h
      exact ⟨h0, by simpa using h.symm, fun m _ hm => hm⟩
  | .cons c b rest => by
      intro h0 tl st' h
      simp only [visitE] at h
      obtain ⟨st2, h3, h4⟩ := exceptBindOk _ _ _ h
      obtain ⟨st1, h5, h6⟩ := exceptBindOk _ _ _ h3
      obtain ⟨g1, rfl, p1⟩ := presS c h0 tl st1 h5
      obtain ⟨g2, rfl, p2⟩ := presL b g1 tl st2 h6
      obtain ⟨g3, rfl, p3⟩ := presE rest g2 tl st' h4
      refine ⟨g3, rfl, fun m hb hm => ?_⟩
      simp only [bindsE, Bool.or_eq_false_iff] at hb
      exact p3 m hb.2 (p2 m hb.1.2 (p1 m hb.1.1 hm))
end

mutual
/-- If a name is absent from every live scope and the node contains an
offending use of it at the current level (`offHereS`), the visit raises
a `CompilerError`. -/
def rejectS : (x : Node) → ∀ n h0 tl, symLookup (h0 :: tl) n = false →
    bindsS n x = false → offHereS n x = true → isErr (visitS x (h0 :: tl)) = true
  | .num _ _ _ => by intro n h0 tl _ _ hoff; simp [offHereS] at hoff
  | .strLit _ _ _ => by intro n h0 tl _ _ hoff; simp [offHereS] at hoff
  | .ident m l c => by
      intro n h0 tl hlook _ hoff
      obtain rfl : m = n := by simpa [offHereS] using hoff
      simp [visitS, isErr, hlook]
  | .binop l op r ln cl => by
      intro n h0 tl hlook hb hoff
      simp only [offHereS, Bool.or_eq_true] at hoff
      simp only [bindsS, Bool.or_eq_false_iff] at hb
      simp only [visitS]
      cases h1 : visitS l (h0 :: tl) with
      | error e1 => simp [isErr, h1, bind, Except.bind]
      | ok st1 =>
          obtain ⟨g1, rfl, p1⟩ := presS l h0 tl st1 h1
          rcases hoff with hl | hr
          · have := rejectS l n h0 tl hlook hb.1 hl
            rw [h1] at this; simp [isErr] at this
          · have hlook1 := symLookupStep (p1 n hb.1) hlook
            have := rejectS r n g1 tl hlook1 hb.2 hr
            simpa [bind, Except.bind, h1] using this
  | .assign nm v ln cl => by
      intro n h0 tl hlook hb hoff
      simp only [offHereS] at hoff
      simp only [bindsS, Bool.or_eq_false_iff] at hb
      simp only [visitS]
      cases h1 : visitS v (h0 :: tl) with
      | error e1 => simp [isErr, h1, bind, Except.bind]
      | ok st1 =>
          have := rejectS v n h0 tl hlook hb.2 hoff
          rw [h1] at this; simp [isErr] at this
  | .ifS c tb es eb ln cl => by
      intro n h0 tl hlook hb hoff
      simp only [offHereS, Bool.or_eq_true] at hoff
      simp only [bindsS, Bool.or_eq_false_iff] at hb
      simp only [visitS]
      cases h1 : visitS c (h0 :: tl) with
      | error e1 => simp [isErr, h1, bind, Except.bind]
      | ok st1 =>
          obtain ⟨g1, rfl, p1⟩ := presS c h0 tl st1 h1
          have hlook1 := symLookupStep (p1 n hb.1.1.1) hlook
          rcases hoff with ((hc | htb) | hes) | heb
          · have := rejectS c n h0 tl hlook hb.1.1.1 hc
            rw [h1] at this; simp [isErr] at this
          · cases h2 : visitL tb (g1 :: tl) with
            | error e2 => simp [isErr, h1, h2, bind, Except.bind]
            | ok st2 =>
                have := rejectL tb n g1 tl hlook1 hb.1.1.2 htb
                rw [h2] at this; simp [isErr] at this
          · cases h2 : visitL tb (g1 :: tl) with
            | error e2 => simp [isErr, h1, h2, bind, Except.bind]
            | ok st2 =>
                obtain ⟨g2, rfl, p2⟩ := presL tb g1 tl st2 h2
                have hlook2 := symLookupStep (p2 n hb.1.1.2) hlook1
                cases h3 : visitE es (g2 :: tl) with
                | error e3 => simp [isErr, h1, h2, h3, bind, Except.bind]
                | ok st3 =>
                    have := rejectE es n g2 tl hlook2 hb.1.2 hes
                    rw [h3] at this; simp [isErr] at this
          · cases h2 : visitL tb (g1 :: tl) with
            | error e2 => simp [isErr, h1, h2, bind, Except.bind]
            | ok st2 =>
                obtain ⟨g2, rfl, p2⟩ := presL tb g1 tl st2 h2
                have hlook2 := symLookupStep (p2 n hb.1.1.2) hlook1
                cases h3 : visitE es (g2 :: tl) with
                | error e3 => simp [isErr, h1, h2, h3, bind, Except.bind]
                | ok st3 =>
                    obtain ⟨g3, rfl, p3⟩ := presE es g2 tl st3 h3
                    have hlook3 := symLookupStep (p3 n hb.1.2) hlook2
                    have := rejectL eb n g3 tl hlook3 hb.2 heb
                    simpa [bind, Except.bind, h1, h2, h3] using this
  | .whileS c b ln cl => by
      intro n h0 tl hlook hb hoff
      simp only [offHereS, Bool.or_eq_true] at hoff
      simp only [bindsS, Bool.or_eq_false_iff] at hb
      simp only [visitS]
      cases h1 : visitS c (h0 :: tl) with
      | error e1 => simp [isErr, h1, bind, Except.bind]
      | ok st1 =>
          obtain ⟨g1, rfl, p1⟩ := presS c h0 tl st1 h1
          rcases hoff with hc | hbody
          · have := rejectS c n h0 tl hlook hb.1 hc
            rw [h1] at this; simp [isErr] at this
          · have hlook1 := symLookupStep (p1 n hb.1) hlook
            have := rejectL b n g1 tl hlook1 hb.2 hbody
            simpa [bind, Except.bind, h1] using this
  | .funcDef nm ps body ln cl => by
      intro n h0 tl hlook hb hoff
      simp only [offHereS, Bool.and_eq_true, Bool.not_eq_true'] at hoff
      simp only [bindsS] at hb
      simp only [visitS]
      obtain ⟨sPs, hfold, pPs⟩ := foldlSymInsert ps [] ((nm :: h0) :: tl)
      rw [show symInsert (h0 :: tl) nm = (nm :: h0) :: tl from rfl, hfold]
      have hlookIn : symLookup (sPs :: (nm :: h0) :: tl) n = false := by
        simp only [symLookup, scopeHas, Bool.or_eq_false_iff] at hlook ⊢
        exact ⟨pPs n hoff.1.1 rfl, ⟨hb, hlook.1⟩, hlook.2⟩
      have := rejectL body n sPs ((nm :: h0) :: tl) hlookIn hoff.1.2 hoff.2
      cases hres : visitL body (sPs :: (nm :: h0) :: tl) with
      | error e => simp [isErr, Except.map, hres]
      | ok st2 => rw [hres] at this; simp [isErr] at this
  | .retS Option.none ln cl => by
      intro n h0 tl _ _ hoff; simp [offHereS] at hoff
  | .retS (some v) ln cl => by
      intro n h0 tl hlook hb hoff
      simp only [offHereS] at hoff
      simp only [bindsS] at hb
      simp only [visitS]
      exact rejectS v n h0 tl hlook hb hoff
  | .call f args ln cl => by
      intro n h0 tl hlook hb hoff
      simp only [offHereS, Bool.or_eq_true] at hoff
      simp only [bindsS, Bool.or_eq_false_iff] at hb
      simp only [visitS]
      by_cases hi : isIdent f
      · rw [if_pos hi]
        rcases hoff with hf | hargs
        · rw [if_pos hi] at hf; simp at hf
        · have := rejectL args n h0 tl hlook hb.2 hargs
          simpa [bind, Except.bind] using this
      · rw [if_neg hi]
        cases h1 : visitS f (h0 :: tl) with
        | error e1 => simp [isErr, h1, bind, Except.bind]
        | ok st1 =>
            obtain ⟨g1, rfl, p1⟩ := presS f h0 tl st1 h1
            rcases hoff with hf | hargs
            · rw [if_neg hi] at hf
              have := rejectS f n h0 tl hlook hb.1 hf
              rw [h1] at this; simp [isErr] at this
            · have hlook1 := symLookupStep (p1 n hb.1) hlook
              have := rejectL args n g1 tl hlook1 hb.2 hargs
              simpa [bind, Except.bind, h1] using this

/-- `rejectS` over a statement list. -/
def rejectL : (xs : NodeList) → ∀ n h0 tl, symLookup (h0 :: tl) n = false →
    bindsL n xs = false → offHereL n xs = true →
    isErr (visitL xs (h0 :: tl)) = true
  | .nil => by intro n h0 tl _ _ hoff; simp [offHereL] at hoff
  | .cons s rest => by
      intro n h0 tl hlook hb hoff
      simp only [offHereL, Bool.or_eq_true] at hoff
      simp only [bindsL, Bool.or_eq_false_iff] at hb
      simp only [visitL]
      cases h1 : visitS s (h0 :: tl) with
      | error e1 => simp [isErr, h1, bind, Except.bind]
      | ok st1 =>
          obtain ⟨g1, rfl, p1⟩ := presS s h0 tl st1 h1
          rcases hoff with hs | hrest
          · have := rejectS s n h0 tl hlook hb.1 hs
            rw [h1] at this; simp [isErr] at this
          · have hlook1 := symLookupStep (p1 n hb.1) hlook
            have := rejectL rest n g1 tl hlook1 hb.2 hrest
            simpa [bind, Except.bind, h1] using this

/-- `rejectS` over an elif cascade. -/
def rejectE : (xs : ElifList) → ∀ n h0 tl, symLookup (h0 :: tl) n = false →
    bindsE n xs = false → offHereE n xs = true →
    isErr (visitE xs (h0 :: tl)) = true
  | .nil => by intro n h0 tl _ _ hoff; simp [offHereE] at hoff
  | .cons c b rest => by
      intro n h0 tl hlook hb hoff
      simp only [offHereE, Bool.or_eq_true] at hoff
      simp only [bindsE, Bool.or_eq_false_iff] at hb
      simp only [visitE]
      cases h1 : visitS c (h0 :: tl) with
      | error e1 => simp [isErr, h1, bind, Except.bind]
      | ok st1 =>
          obtain ⟨g1, rfl, p1⟩ := presS c h0 tl st1 h1
          have hlook1 := symLookupStep (p1 n hb.1.1) hlook
          rcases hoff with (hc | hbody) | hrest
          · have := rejectS c n h0 tl hlook hb.1.1 hc
            rw [h1] at this; simp [isErr] at this
          · cases h2 : visitL b (g1 :: tl) with
            | error e2 => simp [isErr, h1, h2, bind, Except.bind]
            | ok st2 =>
                have := rejectL b n g1 tl hlook1 hb.1.2 hbody
                rw [h2] at this; simp [isErr] at this
          · cases h2 : visitL b (g1 :: tl) with
            | error e2 => simp [isErr, h1, h2, bind, Except.bind]
            | ok st2 =>
                obtain ⟨g2, rfl, p2⟩ := presL b g1 tl st2 h2
                have hlook2 := symLookupStep (p2 n hb.1.2) hlook1
                have := rejectE rest n g2 tl hlook2 hb.2 hrest
                simpa [bind, Except.bind, h1, h2] using this
end

/-! ## Result projections and claim scenario programs -/

/-- The printed output of a completed run. -/
def finalOut : Res → Option (List Value)
  | .val _ s => some s.out
  | _ => Option.none

/-- The error of a failed run. -/
def finalErr : Res → Option Err
  | .err e _ => some e
  | _ => Option.none

/-- The height of the environment stack after a completed run. -/
def finalStackLen : Res → Option Nat
  | .val _ s => some s.stack.length
  | _ => Option.none

/-- Shorthand: a node with no recorded position. -/
def noPos : Option Nat := Option.none

/-- Spec end-to-end scenario 1: `x = 10`, `print(x)`, `if 1 < 2: x = 5`,
`print(x)`. -/
def scenario1 : NodeList := nl
  [ .assign "x" (.num (.int 10) (some 1) (some 4)) (some 1) (some 0)
  , .call (.ident "print" (some 2) (some 0)) (nl [.ident "x" (some 2) (some 6)])
      (some 2) (some 0)
  , .ifS (.binop (.num (.int 1) (some 3) (some 3)) "<"
        (.num (.int 2) (some 3) (some 7)) (some 3) (some 3))
      (nl [.assign "x" (.num (.int 5) (some 4) (some 8)) (some 4) (some 4)])
      .nil .nil (some 3) (some 0)
  , .call (.ident "print" (some 5) (some 0)) (nl [.ident "x" (some 5) (some 6)])
      (some 5) (some 0) ]

/-- Spec end-to-end scenario 3: `total = 0`, `i = 1`,
`while i < 5: total = total + i; i = i + 1`, `print(total)`. -/
def scenarioWhile : NodeList := nl
  [ .assign "total" (.num (.int 0) noPos noPos) noPos noPos
  , .assign "i" (.num (.int 1) noPos noPos) noPos noPos
  , .whileS (.binop (.ident "i" noPos noPos) "<" (.num (.int 5) noPos noPos)
        noPos noPos)
      (nl [ .assign "total" (.binop (.ident "total" noPos noPos) "+"
              (.ident "i" noPos noPos) noPos noPos) noPos noPos
          , .assign "i" (.binop (.ident "i" noPos noPos) "+"
              (.num (.int 1) noPos noPos) noPos noPos) noPos noPos ])
      noPos noPos
  , .call (.ident "print" noPos noPos) (nl [.ident "total" noPos noPos])
      noPos noPos ]

/-- `def f(): if 1: return 42` then `y = f()`, `print(y)` — a return
fired inside an if-block inside a call. -/
def leakProg : NodeList := nl
  [ .funcDef "f" [] (nl
      [ .ifS (.num (.int 1) noPos noPos)
          (nl [.retS (some (.num (.int 42) noPos noPos)) noPos noPos])
          .nil .nil noPos noPos ]) noPos noPos
  , .assign "y" (.call (.ident "f" noPos noPos) .nil noPos noPos) noPos noPos
  , .call (.ident "print" noPos noPos) (nl [.ident "y" noPos noPos])
      noPos noPos ]

/-- Spec end-to-end scenario 2: `def add(a, b): return a + b` then
`print(add(2, 3))` — a return fired directly in the function body. -/
def addProg : NodeList := nl
  [ .funcDef "add" ["a", "b"] (nl
      [ .retS (some (.binop (.ident "a" noPos noPos) "+"
          (.ident "b" noPos noPos) noPos noPos)) noPos noPos ]) noPos noPos
  , .call (.ident "print" noPos noPos)
      (nl [.call (.ident "add" noPos noPos)
        (nl [.num (.int 2) noPos noPos, .num (.int 3) noPos noPos])
        noPos noPos]) noPos noPos ]

/-- Closure scenario: `def outer(): x = 10; def inner(): return x;
x = 20; y = inner(); print(y)` then `outer()`. -/
def closureProg : NodeList := nl
  [ .funcDef "outer" [] (nl
      [ .assign "x" (.num (.int 10) noPos noPos) noPos noPos
      , .funcDef "inner" []
          (nl [.retS (some (.ident "x" noPos noPos)) noPos noPos]) noPos noPos
      , .assign "x" (.num (.int 20) noPos noPos) noPos noPos
      , .assign "y" (.call (.ident "inner" noPos noPos) .nil noPos noPos)
          noPos noPos
      , .call (.ident "print" noPos noPos) (nl [.ident "y" noPos noPos])
          noPos noPos ]) noPos noPos
  , .call (.ident "outer" noPos noPos) .nil noPos noPos ]

/-- Factorial scenario:
`def fact(n): if n <= 1: return 1; return n * fact(n - 1)` then
`print(fact(k))`. -/
def factProg (k : Int) : NodeList := nl
  [ .funcDef "fact" ["n"] (nl
      [ .ifS (.binop (.ident "n" noPos noPos) "<=" (.num (.int 1) noPos noPos)
            noPos noPos)
          (nl [.retS (some (.num (.int 1) noPos noPos)) noPos noPos])
          .nil .nil noPos noPos
      , .retS (some (.binop (.ident "n" noPos noPos) "*"
          (.call (.ident "fact" noPos noPos)
            (nl [.binop (.ident "n" noPos noPos) "-"
              (.num (.int 1) noPos noPos) noPos noPos]) noPos noPos)
          noPos noPos)) noPos noPos ]) noPos noPos
  , .call (.ident "print" noPos noPos)
      (nl [.call (.ident "fact" noPos noPos)
        (nl [.num (.int k) noPos noPos]) noPos noPos]) noPos noPos ]

/-- `x = 1 / 0`. -/
def intDivProg : NodeList := nl
  [ .assign "x" (.binop (.num (.int 1) noPos noPos) "/"
      (.num (.int 0) noPos noPos) noPos noPos) noPos noPos ]

/-- `x = "abc" / 0` — a division whose right operand is zero but whose
left operand is a string. -/
def strDivProg : NodeList := nl
  [ .assign "x" (.binop (.strLit "abc" noPos noPos) "/"
      (.num (.int 0) noPos noPos) noPos noPos) noPos noPos ]

/-- `def f(): return 0` then `x = print`, `y = f` — reads, as values, of
the pre-declared builtin and of a name bound only by a function
definition. -/
def defPrintProg : NodeList := nl
  [ .funcDef "f" [] (nl [.retS (some (.num (.int 0) noPos noPos)) noPos noPos])
      (some 1) (some 0)
  , .assign "x" (.ident "print" (some 3) (some 4)) (some 3) (some 0)
  , .assign "y" (.ident "f" (some 4) (some 4)) (some 4) (some 0) ]

/-- Two undeclared reads, `a` on line 1 then `b` on line 2. -/
def twoReadsProg : NodeList := nl
  [ .ident "a" (some 1) (some 0)
  , .ident "b" (some 2) (some 0) ]

/-- `x = 1` then `y = z` with `z` undeclared, read on line 2. -/
def badProg : NodeList := nl
  [ .assign "x" (.num (.int 1) noPos noPos) noPos noPos
  , .assign "y" (.ident "z" (some 2) (some 4)) (some 2) (some 0) ]

/-- Mutually recursive forward calls:
`def f(): g()` / `def g(): f()` / `f()`. -/
def mutualProg : NodeList := nl
  [ .funcDef "f" [] (nl [.call (.ident "g" noPos noPos) .nil noPos noPos])
      noPos noPos
  , .funcDef "g" [] (nl [.call (.ident "f" noPos noPos) .nil noPos noPos])
      noPos noPos
  , .call (.ident "f" noPos noPos) .nil noPos noPos ]

/-- The host token stream `tokenize.generate_tokens` yields for the
source text `"x = $\n"`: the unrecognized character `$` surfaces as an
`ERRORTOKEN` element at line 1, column 4. -/
def hostBadStream : List HostTok :=
  [ ⟨.NAME, "x", 1, 0⟩, ⟨.OP, "=", 1, 2⟩, ⟨.ERRORTOKEN, "$", 1, 4⟩,
    ⟨.NEWLINE, "\n", 1, 5⟩, ⟨.ENDMARKER, "", 2, 0⟩ ]

/-- The token stream of `"2 + 3 * 4"`. -/
def toks234 : List Token :=
  [ ⟨.NUMBER, "2", 1, 0⟩, ⟨.OP, "+", 1, 2⟩, ⟨.NUMBER, "3", 1, 4⟩,
    ⟨.OP, "*", 1, 6⟩, ⟨.NUMBER, "4", 1, 8⟩, ⟨.NEWLINE, "", 1, 9⟩,
    ⟨.EOF, "", 2, 0⟩ ]

/-- A two-operator expression's token stream
`NUMBER a, OP op1, NUMBER b, OP op2, NUMBER c`. -/
def exprToks (a op1 b op2 c : String) : List Token :=
  [ ⟨.NUMBER, a, 1, 0⟩, ⟨.OP, op1, 1, 2⟩, ⟨.NUMBER, b, 1, 4⟩,
    ⟨.OP, op2, 1, 6⟩, ⟨.NUMBER, c, 1, 8⟩, ⟨.NEWLINE, "", 1, 9⟩,
    ⟨.EOF, "", 2, 0⟩ ]

/-- The `NumberNode` the parser builds for token text `s` at line 1,
column `col`. -/
def numNode (s : String) (col : Nat) : Node :=
  .num (numOfTokStr s) (some 1) (some col)

/-- The parser, fed `a op1 b op2 c`, groups to the left:
`(a op1 b) op2 c`. -/
def leftGrouped (op1 op2 : String) : Prop := ∀ a b c : String,
  parseT 50 .exprT ⟨exprToks a op1 b op2 c, 0⟩ =
    .node (.binop (.binop (numNode a 0) op1 (numNode b 4) (some 1) (some 0))
      op2 (numNode c 8) (some 1) (some 0)) ⟨exprToks a op1 b op2 c, 5⟩

/-- The parser, fed `a op1 b op2 c`, groups to the right:
`a op1 (b op2 c)` — `op2` binds tighter. -/
def rightGrouped (op1 op2 : String) : Prop := ∀ a b c : String,
  parseT 50 .exprT ⟨exprToks a op1 b op2 c, 0⟩ =
    .node (.binop (numNode a 0) op1
      (.binop (numNode b 4) op2 (numNode c 8) (some 1) (some 4))
      (some 1) (some 0)) ⟨exprToks a op1 b op2 c, 5⟩

/-- `def f(a, b): return b` then `print(f(1))` — a call with fewer
arguments than parameters. -/
def fewArgsProg : NodeList := nl
  [ .funcDef "f" ["a", "b"]
      (nl [.retS (some (.ident "b" noPos noPos)) noPos noPos]) noPos noPos
  , .call (.ident "print" noPos noPos)
      (nl [.call (.ident "f" noPos noPos) (nl [.num (.int 1) noPos noPos])
        noPos noPos]) noPos noPos ]

/-- `def g(): print(1); return 10`, `def h(): print(2); return 20`,
`def f(a): return a`, `x = f(g(), h())`, `print(x)` — a call with more
arguments than parameters, both arguments effectful. -/
def manyArgsProg : NodeList := nl
  [ .funcDef "g" [] (nl
      [ .call (.ident "print" noPos noPos) (nl [.num (.int 1) noPos noPos])
          noPos noPos
      , .retS (some (.num (.int 10) noPos noPos)) noPos noPos ]) noPos noPos
  , .funcDef "h" [] (nl
      [ .call (.ident "print" noPos noPos) (nl [.num (.int 2) noPos noPos])
          noPos noPos
      , .retS (some (.num (.int 20) noPos noPos)) noPos noPos ]) noPos noPos
  , .funcDef "f" ["a"]
      (nl [.retS (some (.ident "a" noPos noPos)) noPos noPos]) noPos noPos
  , .assign "x" (.call (.ident "f" noPos noPos)
      (nl [ .call (.ident "g" noPos noPos) .nil noPos noPos
          , .call (.ident "h" noPos noPos) .nil noPos noPos ]) noPos noPos)
      noPos noPos
  , .call (.ident "print" noPos noPos) (nl [.ident "x" noPos noPos])
      noPos noPos ]

/-- The condition of `scenarioWhile`'s loop, `i < 5`. -/
def wCond : Node :=
  .binop (.ident "i" noPos noPos) "<" (.num (.int 5) noPos noPos) noPos noPos

/-- The body of `scenarioWhile`'s loop. -/
def wBody : NodeList := nl
  [ .assign "total" (.binop (.ident "total" noPos noPos) "+"
      (.ident "i" noPos noPos) noPos noPos) noPos noPos
  , .assign "i" (.binop (.ident "i" noPos noPos) "+"
      (.num (.int 1) noPos noPos) noPos noPos) noPos noPos ]

/-- The `print(total)` statement following `scenarioWhile`'s loop. -/
def wPrint : Node :=
  .call (.ident "print" noPos noPos) (nl [.ident "total" noPos noPos])
    noPos noPos

/-- The interpreter state at entry to `scenarioWhile`'s loop: one global
frame with `print`, `total = 0`, `i = 1`, nothing printed. -/
def wEntrySt : St :=
  ⟨[[("print", Value.builtinPrint), ("total", Value.int 0), ("i", Value.int 1)]],
    []⟩

/-- From its entry state, `scenarioWhile`'s loop exhausts any amount of
fuel: each iteration writes `total` and `i` into the pushed copy of the
global frame and then discards it, so the loop condition `i < 5` reads
`i = 1` forever. One iteration consumes exactly one fuel tick at the
loop task plus a fixed-depth body, giving the stepping equation used in
the induction. -/
theorem whileLoopErr :
    ∀ f, ∃ s, evalT f (.whileLoop wCond wBody) wEntrySt = .err .outOfFuel s := by
  intro f
  induction f using Nat.strong_induction_on with
  | _ f ih =>
    match f with
    | 0 => exact ⟨_, rfl⟩
    | 1 => exact ⟨_, rfl⟩
    | 2 => exact ⟨_, rfl⟩
    | 3 => exact ⟨_, rfl⟩
    | 4 => exact ⟨_, rfl⟩
    | 5 => exact ⟨_, rfl⟩
    | (k + 6) =>
        have hstep : evalT (k + 6) (.whileLoop wCond wBody) wEntrySt =
            evalT (k + 5) (.whileLoop wCond wBody) wEntrySt := rfl
        rw [hstep]
        exact ih (k + 5) (by omega)

/-! ## Claim theorems -/

/-- C1: the claim says a reassignment inside an executed `if` true-branch
or `while` body is visible in the enclosing scope afterwards (spec
scenario 1 outputs `10` then `5`; scenario 3 outputs `10`). The code
instead pushes a *copy* of the current frame and discards it on block
exit (`eval_IfNode`/`eval_WhileNode`, `interpreter.py` lines 133/153):
scenario 1 prints `10` then `10`, and scenario 3 never prints at all:
`i` never changes in the surviving frame, so the run exhausts *every*
amount of fuel. -/
theorem if_while_body_writes_are_discarded :
    finalOut (run 100 scenario1) = some [Value.int 10, Value.int 10] ∧
    (∀ fuel, finalErr (run fuel scenarioWhile) = some .outOfFuel) := by
  refine ⟨rfl, ?_⟩
  intro fuel
  match fuel with
  | 0 => rfl
  | 1 => rfl
  | 2 => rfl
  | 3 => rfl
  | (f + 4) =>
      obtain ⟨s, hs⟩ := whileLoopErr f
      have hrun : run (f + 4) scenarioWhile =
          (match evalT f (.whileLoop wCond wBody) wEntrySt with
           | .val _ s1 => evalT (f + 1) (.seq (nl [wPrint])) s1
           | other => other) := rfl
      rw [hrun, hs]
      rfl

/-- C2: the claim says the return signal is caught at the call site, the
call yields the value, and the environment stack is fully restored even
for returns inside nested `if`/`while` blocks. In the code the signal is
caught at the call site and yields the value, but the handler pops only
one frame (`eval_CallNode` lines 112-114) while the `if`-block's pushed
frame was never popped (no `finally` in `eval_IfNode`): after
`y = f()` in `leakProg` the stack holds 2 frames instead of 1. With the
return directly in the body (`addProg`) the stack is restored. -/
theorem return_inside_block_leaks_frames :
    finalOut (run 100 leakProg) = some [Value.int 42] ∧
    finalStackLen (run 100 leakProg) = some 2 ∧
    finalOut (run 100 addProg) = some [Value.int 5] ∧
    finalStackLen (run 100 addProg) = some 1 :=
  ⟨rfl, rfl, rfl, rfl⟩

/-- C3: a function definition snapshots the *current* innermost frame as
the captured environment of the produced `FunctionValue`
(`eval_FunctionDefNode`, `interpreter.py` line 121), and the snapshot is
a copy: in `closureProg`, `inner` captures `x = 10`; reassigning
`x = 20` afterwards and calling `inner` later still yields `10`. -/
theorem closures_capture_environment_copy_at_definition :
    (∀ (name : String) (params : List String) (body : NodeList)
      (ln cl : Option Nat) (e : Env) (rest : List Env) (out : List Value)
      (fuel : Nat),
      evalT (fuel + 1) (.eval (.funcDef name params body ln cl))
          ⟨e :: rest, out⟩ =
        .val .none ⟨envSet e name (.func params body e) :: rest, out⟩) ∧
    finalOut (run 100 closureProg) = some [Value.int 10] :=
  ⟨fun _ _ _ _ _ _ _ _ _ => rfl, rfl⟩

/-- C4: the factorial-style self-recursive function terminates and
yields `k!` for small non-negative `k`, even though its captured
environment was snapshotted before `fact` was bound — the recursive
call finds `fact` by walking down the environment stack into the global
frame. -/
theorem recursive_factorial_terminates_correctly :
    finalOut (run 300 (factProg 0)) = some [Value.int (Nat.factorial 0)] ∧
    finalOut (run 300 (factProg 1)) = some [Value.int (Nat.factorial 1)] ∧
    finalOut (run 300 (factProg 2)) = some [Value.int (Nat.factorial 2)] ∧
    finalOut (run 300 (factProg 3)) = some [Value.int (Nat.factorial 3)] ∧
    finalOut (run 300 (factProg 4)) = some [Value.int (Nat.factorial 4)] ∧
    finalOut (run 300 (factProg 5)) = some [Value.int (Nat.factorial 5)] ∧
    finalOut (run 300 (factProg 6)) = some [Value.int (Nat.factorial 6)] :=
  ⟨rfl, rfl, rfl, rfl, rfl, rfl, rfl⟩

/-- Dividing by a numeric zero with a numeric left operand raises
`ZeroDivisionError` (`applyBinOp`, mirroring `interpreter.py` line 70). -/
theorem applyDivZero (l r : Value) (a b : NumVal) (ha : asNum l = some a)
    (hb : asNum r = some b) (hz : b.toRat = 0) :
    applyBinOp "/" l r = .error .divisionByZero := by
  simp [applyBinOp, ha, hb, hz]

/-- A `/` with a non-numeric left operand raises `TypeError` (host
binary-operator dispatch fails before any zero check). -/
theorem applyDivNonNumLeft (l r : Value) (hl : asNum l = Option.none) :
    applyBinOp "/" l r = .error .typeError := by
  cases hr : asNum r <;> simp [applyBinOp, hl, hr]

/-- Dividing by a numeric zero never yields a value, whatever the left
operand: the failure is `ZeroDivisionError` or, for a non-numeric left
operand, `TypeError`. -/
theorem applyDivNoVal (l r : Value) (b : NumVal) (hb : asNum r = some b)
    (hz : b.toRat = 0) (v : Value) : applyBinOp "/" l r ≠ .ok v := by
  cases hl : asNum l with
  | some a => simp [applyDivZero l r a b hl hb hz]
  | none => simp [applyBinOp, hl, hb]

/-- C5 counterexample: the claim demands `DivisionByZeroError` for
*every* `/` whose right operand is zero, but `"abc" / 0` fails with the
host `TypeError` (raised before the zero check, as for host `str / int`)
rather than `ZeroDivisionError`. -/
theorem div_by_zero_with_string_operand_is_type_error :
    finalErr (run 50 strDivProg) = some .typeError ∧
    Err.typeError ≠ Err.divisionByZero :=
  ⟨rfl, by decide⟩

/-- C5 amended: a `/` whose operands are both numeric (int, float or
bool) and whose right operand is zero fails with `ZeroDivisionError`;
with any left operand, a zero numeric divisor never lets the division
yield a value (no infinity, no sentinel) — a non-numeric left operand
fails with `TypeError` instead. End to end, running `x = 1 / 0` fails
with `ZeroDivisionError`. -/
theorem div_by_zero_on_numeric_operands :
    (∀ (l r : Value) (a b : NumVal), asNum l = some a → asNum r = some b →
      b.toRat = 0 → applyBinOp "/" l r = .error .divisionByZero) ∧
    (∀ (l r : Value) (b : NumVal), asNum r = some b → b.toRat = 0 →
      ∀ v, applyBinOp "/" l r ≠ .ok v) ∧
    (∀ (l r : Value), asNum l = Option.none →
      applyBinOp "/" l r = .error .typeError) ∧
    finalErr (run 50 intDivProg) = some .divisionByZero :=
  ⟨applyDivZero, applyDivNoVal, applyDivNonNumLeft, rfl⟩

/-- Witness for C5 at concrete inputs: `7 / 0` raises
`ZeroDivisionError`, and `"abc" / 0` yields no value. -/
theorem div_by_zero_on_numeric_operands_witness :
    (asNum (Value.int 7) = some (NumVal.int 7) ∧
      asNum (Value.int 0) = some (NumVal.int 0) ∧
      (NumVal.int 0).toRat = 0) ∧
    applyBinOp "/" (Value.int 7) (Value.int 0) = .error .divisionByZero ∧
    (∀ v, applyBinOp "/" (Value.str "abc") (Value.int 0) ≠ .ok v) ∧
    applyBinOp "/" (Value.str "abc") (Value.int 0) = .error .typeError :=
  ⟨⟨rfl, rfl, by simp [NumVal.toRat]⟩,
   div_by_zero_on_numeric_operands.1 _ _ _ _ rfl rfl (by simp [NumVal.toRat]),
   fun v =>
     div_by_zero_on_numeric_operands.2.1 (Value.str "abc") (Value.int 0)
       (NumVal.int 0) rfl (by simp [NumVal.toRat]) v,
   div_by_zero_on_numeric_operands.2.2.1 (Value.str "abc") (Value.int 0) rfl⟩

/-- C7: `tokenize_source` has no failure path and no `LexError` exists
anywhere in the code: on the host stream for `"x = $"` the `ERRORTOKEN`
carrying the unrecognized `$` is silently dropped by the final
`continue` (`lexer.py` lines 34-36), and in general any `ERRORTOKEN`
element is skipped without error. -/
theorem lexer_silently_drops_error_tokens :
    tokenize_source hostBadStream =
      [⟨.NAME, "x", 1, 0⟩, ⟨.OP, "=", 1, 2⟩, ⟨.NEWLINE, "\n", 1, 5⟩,
       ⟨.EOF, "", 2, 0⟩] ∧
    (∀ (h : HostTok) (rest : List HostTok), h.kind = .ERRORTOKEN →
      tokenize_source (h :: rest) = tokenize_source rest) := by
  refine ⟨rfl, ?_⟩
  intro h rest hk
  obtain ⟨k, t, l, c⟩ := h
  simp only at hk
  subst hk
  simp [tokenize_source]

/-- Witness for C7 at a concrete input: the lone `ERRORTOKEN` for `$`
maps to the empty token list. -/
theorem lexer_silently_drops_error_tokens_witness :
    (HostTok.mk .ERRORTOKEN "$" 1 4).kind = .ERRORTOKEN ∧
    tokenize_source [⟨.ERRORTOKEN, "$", 1, 4⟩] = tokenize_source [] :=
  ⟨rfl, lexer_silently_drops_error_tokens.2 ⟨.ERRORTOKEN, "$", 1, 4⟩ [] rfl⟩

/-- C6 counterexample: in `defPrintProg`, `print` (pre-declared builtin)
and `f` (bound only by `def f`) are read as values, are never assigned
and are never parameters, yet the checker accepts the program; and in
`twoReadsProg`, `b` satisfies the claim's condition but the first error
reported names `a`, not `b`. -/
theorem checker_accepts_builtin_and_def_reads :
    (assignsL "print" defPrintProg = false ∧
      paramL "print" defPrintProg = false ∧
      readsL "print" defPrintProg = true) ∧
    (assignsL "f" defPrintProg = false ∧ paramL "f" defPrintProg = false ∧
      readsL "f" defPrintProg = true) ∧
    analyze defPrintProg = true ∧
    (assignsL "b" twoReadsProg = false ∧ paramL "b" twoReadsProg = false ∧
      readsL "b" twoReadsProg = true) ∧
    visitL twoReadsProg initTab = .error ⟨"a", some 1⟩ ∧
    ("a" : String) ≠ "b" :=
  ⟨⟨rfl, rfl, rfl⟩, ⟨rfl, rfl, rfl⟩, rfl, ⟨rfl, rfl, rfl⟩, rfl, by decide⟩

/-- C6 amended: if `n` is not the pre-declared builtin `print` and the
program contains a value read of `n` with no declaration — assignment,
function-definition name, or parameter — in any scope enclosing that
read (`offends`), the checker rejects the program, and the
`CompilerError` it reports names an identifier and line that are an
actual value-read occurrence (the first offense encountered).
Dually, every error the checker ever reports names a value-read — an
identifier used only as a call target is never reported, so calling an
undeclared name needs no declaration. -/
theorem checker_rejects_undeclared_value_reads :
    (∀ (prog : NodeList) (n : String), n ≠ "print" → offends n prog = true →
      analyze prog = false ∧
        ∃ e, visitL prog initTab = .error e ∧
          readsAtL e.name e.line prog = true) ∧
    (∀ (prog : NodeList) (st : SymTab) (e : CErr), visitL prog st = .error e →
      readsAtL e.name e.line prog = true) := by
  constructor
  · intro prog n hne hoff
    simp only [offends, Bool.and_eq_true, Bool.not_eq_true'] at hoff
    have hbeq : (("print" : String) == n) = false :=
      beq_eq_false_iff_ne.mpr fun h => hne h.symm
    have hlook : symLookup (["print"] :: ([] : SymTab)) n = false := by
      simp [symLookup, scopeHas, hbeq]
    have hrej := rejectL prog n ["print"] [] hlook hoff.1 hoff.2
    have hinit : (initTab : SymTab) = ["print"] :: [] := rfl
    rw [← hinit] at hrej
    cases hres : visitL prog initTab with
    | ok st' => rw [hres] at hrej; simp [isErr] at hrej
    | error e =>
        exact ⟨by simp [analyze, hres], e, rfl,
          errorReadL prog initTab e hres⟩
  · exact fun prog st e h => errorReadL prog st e h

/-- Witness for C6 at concrete inputs: `badProg` offends with `z`
(assigned nowhere, no parameter, read on line 2) and is rejected; the
error reported on `twoReadsProg` names the value-read `a` at line 1. -/
theorem checker_rejects_undeclared_value_reads_witness :
    (("z" : String) ≠ "print" ∧ offends "z" badProg = true) ∧
    (analyze badProg = false ∧
      ∃ e, visitL badProg initTab = .error e ∧
        readsAtL e.name e.line badProg = true) ∧
    readsAtL "a" (some 1) twoReadsProg = true := by
  refine ⟨⟨by decide, rfl⟩,
    checker_rejects_undeclared_value_reads.1 badProg "z" (by decide) rfl, ?_⟩
  exact checker_rejects_undeclared_value_reads.2 twoReadsProg initTab
    ⟨"a", some 1⟩ rfl

/-- Each listed operator pair parses left-grouped. -/
def leftGroupedAll : List (String × String) → Prop
  | [] => True
  | (o1, o2) :: rest => leftGrouped o1 o2 ∧ leftGroupedAll rest

/-- Each listed operator pair parses right-grouped (the second operator
binds tighter). -/
def rightGroupedAll : List (String × String) → Prop
  | [] => True
  | (o1, o2) :: rest => rightGrouped o1 o2 ∧ rightGroupedAll rest

/-- C8: `2 + 3 * 4` parses as `2 + (3 * 4)` and evaluates to `14`;
multiplicative operators bind tighter than additive, additive tighter
than comparison (shape lemmas quantified over arbitrary number-token
texts); and every binary operator is parsed left-associatively — the
`leftGroupedAll` list covers each operator paired with itself and
representative same- and lower-precedence mixes. -/
theorem operator_precedence_and_associativity :
    parseProgram 50 toks234 = .ok (.cons (.binop (numNode "2" 0) "+"
        (.binop (numNode "3" 4) "*" (numNode "4" 8) (some 1) (some 4))
        (some 1) (some 0)) .nil) ∧
    evalT 50 (.eval (.binop (numNode "2" 0) "+"
        (.binop (numNode "3" 4) "*" (numNode "4" 8) (some 1) (some 4))
        (some 1) (some 0))) initSt = .val (.int 14) initSt ∧
    rightGroupedAll [("+", "*"), ("-", "/"), ("<", "+"), ("==", "-")] ∧
    leftGroupedAll [("*", "+"), ("+", "<"), ("/", "=="), ("+", "+"),
      ("+", "-"), ("-", "-"), ("-", "+"), ("*", "*"), ("*", "/"),
      ("/", "/"), ("/", "*"), ("==", "=="), ("!=", "!="), ("<", "<"),
      ("<=", "<="), (">", ">"), (">=", ">="), ("==", "<")] := by
  refine ⟨rfl, rfl, ?_, ?_⟩
  all_goals simp only [rightGroupedAll, leftGroupedAll]
  all_goals repeat' apply And.intro
  all_goals first
    | exact trivial
    | exact fun a b c => rfl

/-- Host dict write/read: reading back after `d[k] = v` gives `v` for
the written key and is unchanged for any other key. -/
theorem envGetEnvSet (e : Env) (k : String) (v : Value) (name : String) :
    envGet (envSet e k v) name = if k = name then some v else envGet e name := by
  induction e with
  | nil => simp [envSet, envGet]
  | cons kv rest ih =>
      obtain ⟨k0, v0⟩ := kv
      by_cases hk : k0 = k
      · subst hk
        by_cases hn : k0 = name <;> simp [envSet, envGet, hn]
      · by_cases hn : k0 = name
        · subst hn
          have hk2 : ¬k = k0 := fun hh => hk hh.symm
          simp [envSet, envGet, hk, hk2]
        · simp [envSet, envGet, hk, hn, ih]

/-- A name that is not among the parameters keeps its binding (or its
absence) through `bindParams`. -/
theorem bindParamsPreserves (ps : List String) (vs : List Value) (e : Env)
    (name : String) (h : scopeHas ps name = false) :
    envGet (bindParams ps vs e) name = envGet e name := by
  induction ps generalizing vs e with
  | nil => cases vs <;> simp [bindParams]
  | cons p ps ih =>
      simp only [scopeHas, Bool.or_eq_false_iff] at h
      have hne : ¬p = name := by simpa using h.1
      cases vs with
      | nil => rw [bindParams, ih [] _ h.2, envGetEnvSet, if_neg hne]
      | cons v vs => rw [bindParams, ih vs _ h.2, envGetEnvSet, if_neg hne]

/-- A name absent from a list never passes the `scopeHas` test. -/
theorem scopeHasFalseOfNotMem (l : List String) (m : String) (h : m ∉ l) :
    scopeHas l m = false := by
  induction l with
  | nil => rfl
  | cons a l ih =>
      simp only [List.mem_cons, not_or] at h
      simp only [scopeHas, Bool.or_eq_false_iff]
      exact ⟨by simpa using fun hh => h.1 hh.symm, ih h.2⟩

/-- Every parameter beyond the argument list is bound to the `None`
marker by `bindParams` (duplicate-free parameter lists). -/
theorem bindParamsMissingNone (ps : List String) (vs : List Value) (env : Env)
    (i : Nat) (h : i < ps.length) (hnd : ps.Nodup) (hlen : vs.length ≤ i) :
    envGet (bindParams ps vs env) (ps.get ⟨i, h⟩) = some Value.none := by
  induction ps generalizing vs env i with
  | nil => exact absurd h (by simp)
  | cons p ps ih =>
      cases vs with
      | cons v vs =>
          cases i with
          | zero => exact absurd hlen (by simp)
          | succ j =>
              rw [bindParams]
              exact ih vs (envSet env p v) j (by simpa using h)
                hnd.of_cons (by simpa using hlen)
      | nil =>
          cases i with
          | zero =>
              rw [bindParams, List.get]
              rw [bindParamsPreserves ps [] (envSet env p .none) p
                  (scopeHasFalseOfNotMem ps p (List.Nodup.not_mem hnd))]
              rw [envGetEnvSet, if_pos rfl]
          | succ j =>
              rw [bindParams]
              exact ih [] (envSet env p .none) j (by simpa using h)
                hnd.of_cons (by simp)

/-- C9: a call with fewer arguments than parameters binds each missing
trailing parameter to the `None` marker and executes the body: in
`fewArgsProg`, `f(1)` leaves `b = None` and the program prints `None`
rather than failing. -/
theorem missing_args_bind_none :
    (∀ (ps : List String) (vs : List Value) (env : Env) (i : Nat)
      (h : i < ps.length), ps.Nodup → vs.length ≤ i →
      envGet (bindParams ps vs env) (ps.get ⟨i, h⟩) = some Value.none) ∧
    finalOut (run 200 fewArgsProg) = some [Value.none] :=
  ⟨bindParamsMissingNone, rfl⟩

/-- Witness for C9 at a concrete input: binding `["a","b"]` to the lone
argument `7` leaves `b = None`. -/
theorem missing_args_bind_none_witness :
    ((1 : Nat) < (["a", "b"] : List String).length ∧
      (["a", "b"] : List String).Nodup ∧
      ([Value.int 7] : List Value).length ≤ 1) ∧
    envGet (bindParams ["a", "b"] [Value.int 7] [])
      ((["a", "b"] : List String).get ⟨1, by decide⟩) = some Value.none :=
  ⟨⟨by decide, by decide, by decide⟩,
   missing_args_bind_none.1 ["a", "b"] [Value.int 7] [] 1 (by decide)
     (by decide) (by decide)⟩

/-- `bindParams` never looks past the first `len(params)` arguments. -/
theorem bindParamsTake (ps : List String) (vs : List Value) (env : Env) :
    bindParams ps vs env = bindParams ps (vs.take ps.length) env := by
  induction ps generalizing vs env with
  | nil => cases vs <;> rfl
  | cons p ps ih =>
      cases vs with
      | nil => rfl
      | cons v vs => rw [bindParams, List.length_cons, List.take_succ_cons,
          bindParams, ← ih]

/-- C10: a call with more arguments than parameters evaluates every
argument left to right, then binds the parameters positionally to the
first `len(params)` values and silently discards the rest: `bindParams`
ignores everything past `ps.length`, and in `manyArgsProg` the program
prints `1` (from `g()`), `2` (from `h()`, evaluated after `g()`), then
`10` — the call succeeded, `g()`'s value was used for `a`, `h()`'s
value was discarded. -/
theorem extra_args_discarded_after_evaluation :
    (∀ (ps : List String) (vs : List Value) (env : Env),
      bindParams ps vs env = bindParams ps (vs.take ps.length) env) ∧
    finalOut (run 200 manyArgsProg) =
      some [Value.int 1, Value.int 2, Value.int 10] :=
  ⟨bindParamsTake, rfl⟩

end MiniPy
